import Mathlib

/-!
Verification development for the polygon-manager backend
(`app/services/polygon_service.py`, `app/models/polygon.py`,
`app/database/repository.py`, `app/schemas/polygon_schema.py`,
`app/controllers/polygon_controller.py`, `app/config/settings.py`).

The embedding models Python runtime values with `PyVal`; floats are
modelled as exact scaled decimals `m / 10 ^ e` together with the three
non-finite values, which is faithful for every check the code performs
(equality to NaN/Infinity, magnitude comparison) and for the shortest
round-tripping decimal text that `repr`/`json.dumps` emits for a double.
`json.dumps` / `json.loads` are modelled by an executable printer and
recursive-descent parser over the JSON fragment the repository can ever
store or receive (null, booleans, decimal numbers, NaN/Infinity, strings
without escape sequences, and arrays, with the default `", "` item
separator); JSON objects, exponent notation and string escapes are outside
the fragment and are rejected by the model parser.
-/

/-- Model of a Python runtime value as it can appear in the service and
store layers: `None`, `bool`, `int`, finite `float` (as the exact scaled
decimal `m / 10 ^ e`), the non-finite floats, `str`, and `list`. -/
inductive PyVal where
  | vNone
  | vBool (b : Bool)
  | vInt (n : Int)
  | vFloat (m : Int) (e : Nat)
  | vInf
  | vNInf
  | vNan
  | vStr (s : String)
  | vList (xs : List PyVal)

/-- Discriminator for Python `None`, modelling the `x is None` test. -/
def isNoneV : PyVal → Bool
  | .vNone => true
  | _ => false

/-- Discriminator for NaN, modelling the `x != x` self-inequality test,
which holds exactly for NaN. -/
def isNanV : PyVal → Bool
  | .vNan => true
  | _ => false

/-- Discriminator modelling `x == float("inf") or x == float("-inf")`:
equality with an infinity holds exactly for that infinity. -/
def isInfV : PyVal → Bool
  | .vInf => true
  | .vNInf => true
  | _ => false

/-- Rational value of a finite model float `m / 10 ^ e`. -/
def floatVal (m : Int) (e : Nat) : ℚ := (m : ℚ) / 10 ^ e

/-- Exact test `|m1 / 10 ^ e1| > m2 / 10 ^ e2`, by cross-multiplying with
the positive denominators; this is how the model computes the Python
float comparison `abs(coordinate) > MAX_COORDINATE` exactly. -/
def ratAbsGt (m1 : Int) (e1 : Nat) (m2 : Int) (e2 : Nat) : Bool :=
  (m1.natAbs : Int) * 10 ^ e2 > m2 * 10 ^ e1

/-- Numeric value of a Python number, used for the magnitude check:
`bool` counts as `0`/`1` because `bool` is a subclass of `int`. -/
def numVal : PyVal → ℚ
  | .vBool b => if b then 1 else 0
  | .vInt n => (n : ℚ)
  | .vFloat m e => floatVal m e
  | _ => 0


/-- Model of Python `isinstance(x, (int, float))`: true for `bool`
(a subclass of `int`), `int`, and every `float` including the
non-finite ones. -/
def isNumberInst : PyVal → Bool
  | .vBool _ => true
  | .vInt _ => true
  | .vFloat _ _ => true
  | .vInf => true
  | .vNInf => true
  | .vNan => true
  | _ => false

/-- Model of Python `str.strip()`: drop leading and trailing whitespace. -/
def pyStrip (s : String) : String :=
  String.mk (((s.data.dropWhile Char.isWhitespace).reverse.dropWhile Char.isWhitespace).reverse)

/-! ### Decimal digit strings

The printer and parser for JSON numbers are built on most-significant-first
decimal digit lists. -/

/-- Little-endian decimal digits of `n`, with enough fuel to terminate
structurally; agrees with `Nat.digits 10` once the fuel covers `n`. -/
def natDigitsRev : Nat → Nat → List Nat
  | 0, _ => []
  | f + 1, n => if n = 0 then [] else n % 10 :: natDigitsRev f (n / 10)

/-- Decimal digit characters of `n`, most significant first; `"0"` for `0`. -/
def natToChars (n : Nat) : List Char :=
  if n = 0 then ['0'] else ((natDigitsRev n n).map (fun d => Char.ofNat (48 + d))).reverse

/-- Numeric value of a most-significant-first digit character list. -/
def digitsToNat (ds : List Char) : Nat :=
  ds.foldl (fun a c => 10 * a + (c.toNat - 48)) 0

/-- Split off the longest prefix of decimal digit characters. -/
def takeDigits : List Char → List Char × List Char
  | [] => ([], [])
  | c :: cs =>
    if c.isDigit then
      let (ds, r) := takeDigits cs
      (c :: ds, r)
    else ([], c :: cs)

/-- Left-pad a digit list with `'0'` up to length `k`. -/
def padToLen (ds : List Char) (k : Nat) : List Char :=
  List.replicate (k - ds.length) '0' ++ ds

/-- Canonicalize a scaled decimal by stripping trailing zero digits of the
fractional part; this is the unique representation a double prints as, so
the model parser produces it. Only exact divisions by 10 are taken. -/
def canonF : Int → Nat → Int × Nat
  | m, 0 => (m, 0)
  | m, e + 1 => if m % 10 = 0 then canonF (m / 10) e else (m, e + 1)

/-- Unsigned digit characters of a finite float `a / 10 ^ e`: the digits
of `a` split by a decimal point `e` places from the right, with leading
zeros and a trailing `.0` supplied where needed. -/
def floatBody (a : Nat) (e : Nat) : List Char :=
  if e = 0 then natToChars a ++ ['.', '0']
  else
    let ds := padToLen (natToChars a) (e + 1)
    ds.take (ds.length - e) ++ '.' :: ds.drop (ds.length - e)

/-- Digit characters of a finite float, in Python `repr` form. -/
def floatChars (m : Int) (e : Nat) : List Char :=
  (if m < 0 then ['-'] else []) ++ floatBody m.natAbs e

/-- Digit characters of an integer with its sign. -/
def intChars (n : Int) : List Char :=
  (if n < 0 then ['-'] else []) ++ natToChars n.natAbs

/-! ### Model of `json.dumps`

Python `json.dumps` with the default separators: `", "` between array
items. Strings are emitted without escaping (the repository never stores
strings inside points, so no claim exercises escapes). -/

mutual

/-- Characters `json.dumps` emits for a value. -/
def dumpChars : PyVal → List Char
  | .vNone => ['n', 'u', 'l', 'l']
  | .vBool true => ['t', 'r', 'u', 'e']
  | .vBool false => ['f', 'a', 'l', 's', 'e']
  | .vInt n => intChars n
  | .vFloat m e => floatChars m e
  | .vInf => ['I', 'n', 'f', 'i', 'n', 'i', 't', 'y']
  | .vNInf => ['-', 'I', 'n', 'f', 'i', 'n', 'i', 't', 'y']
  | .vNan => ['N', 'a', 'N']
  | .vStr s => '"' :: s.data ++ ['"']
  | .vList xs => '[' :: dumpElems xs ++ [']']

/-- Characters for the comma-space separated items of an array. -/
def dumpElems : List PyVal → List Char
  | [] => []
  | [x] => dumpChars x
  | x :: y :: xs => dumpChars x ++ ',' :: ' ' :: dumpElems (y :: xs)

end

/-- Model of `json.dumps` as a string. -/
def json_dumps (v : PyVal) : String := String.mk (dumpChars v)

/-! ### Model of `json.loads`

A fuel-indexed recursive-descent parser; the fuel only bounds array
nesting and array length and is always instantiated with the input length
plus one, which every parseable input satisfies. -/

/-- Drop leading JSON whitespace. -/
def skipWs : List Char → List Char
  | [] => []
  | c :: r => if c = ' ' ∨ c = '\t' ∨ c = '\n' ∨ c = '\r' then skipWs r else c :: r

/-- Consume an expected literal character sequence. -/
def dropLit : List Char → List Char → Option (List Char)
  | [], cs => some cs
  | _ :: _, [] => none
  | l :: ls, c :: cs => if c = l then dropLit ls cs else none

/-- Consume the body of a string literal up to the closing quote; escape
sequences are outside the modelled fragment. -/
def takeStr : List Char → Except String (List Char × List Char)
  | [] => .error "unterminated string"
  | c :: r =>
    if c = '"' then .ok ([], r)
    else if c = '\\' then .error "escape sequences are outside the modelled fragment"
    else do
      let (s, r') ← takeStr r
      .ok (c :: s, r')

/-- Parse the digits of a JSON number after an optional leading minus
sign: an integer part and an optional fractional part. A fractional
result is canonicalized, since a double has a unique shortest decimal. -/
def parseNumAfterSign (neg : Bool) (cs : List Char) : Except String (PyVal × List Char) :=
  let (ds, r) := takeDigits cs
  if ds = [] then .error "expected a digit"
  else
    match r with
    | '.' :: r2 =>
      let (fs, r3) := takeDigits r2
      if fs = [] then .error "expected a fractional digit"
      else
        let m0 : Int := (digitsToNat (ds ++ fs) : Int)
        let m : Int := if neg then -m0 else m0
        let (cm, ce) := canonF m fs.length
        .ok (.vFloat cm ce, r3)
    | _ => .ok (.vInt (if neg then -(digitsToNat ds : Int) else (digitsToNat ds : Int)), r)

mutual

/-- Parse the comma-separated items of a non-empty array up to the closing
bracket. `pv` parses one value; the fuel bounds the item count. -/
def parseElems (pv : List Char → Except String (PyVal × List Char)) :
    Nat → List Char → Except String (List PyVal × List Char)
  | 0, _ => .error "out of fuel"
  | k + 1, cs => do
    let (v, r) ← pv cs
    match skipWs r with
    | [] => .error "unterminated array"
    | c :: r2 =>
      if c = ']' then .ok ([v], r2)
      else if c = ',' then do
        let (vs, r3) ← parseElems pv k r2
        .ok (v :: vs, r3)
      else .error "expected a comma or closing bracket"

/-- Parse one JSON value from the head of the input. -/
def parseVal : Nat → List Char → Except String (PyVal × List Char)
  | 0, _ => .error "out of fuel"
  | f + 1, cs =>
    match skipWs cs with
    | [] => .error "unexpected end of input"
    | c :: r =>
      if c = '[' then
        match skipWs r with
        | [] => .error "unterminated array"
        | c2 :: r2 =>
          if c2 = ']' then .ok (.vList [], r2)
          else do
            let (vs, r3) ← parseElems (parseVal f) ((c2 :: r2).length + 1) (c2 :: r2)
            .ok (.vList vs, r3)
      else if c = '"' then do
        let (s, r') ← takeStr r
        .ok (.vStr (String.mk s), r')
      else if c = 'n' then
        match dropLit ['u', 'l', 'l'] r with
        | some r' => .ok (.vNone, r')
        | none => .error "invalid literal"
      else if c = 't' then
        match dropLit ['r', 'u', 'e'] r with
        | some r' => .ok (.vBool true, r')
        | none => .error "invalid literal"
      else if c = 'f' then
        match dropLit ['a', 'l', 's', 'e'] r with
        | some r' => .ok (.vBool false, r')
        | none => .error "invalid literal"
      else if c = 'N' then
        match dropLit ['a', 'N'] r with
        | some r' => .ok (.vNan, r')
        | none => .error "invalid literal"
      else if c = 'I' then
        match dropLit ['n', 'f', 'i', 'n', 'i', 't', 'y'] r with
        | some r' => .ok (.vInf, r')
        | none => .error "invalid literal"
      else if c = '-' then
        match dropLit ['I', 'n', 'f', 'i', 'n', 'i', 't', 'y'] r with
        | some r' => .ok (.vNInf, r')
        | none => parseNumAfterSign true r
      else if c.isDigit then parseNumAfterSign false (c :: r)
      else .error "unexpected character"

end

/-- Model of `json.loads`: parse one value and require only whitespace
after it. -/
def json_loads (s : String) : Except String PyVal := do
  let (v, r) ← parseVal (s.data.length + 1) s.data
  match skipWs r with
  | [] => .ok v
  | _ => .error "extra data"

/-! ### Configuration (`app/config/settings.py`)

`Settings` carries the bounds the validation code reads. The maximum
coordinate is a Python float; it is modelled as a finite scaled decimal
`max_coordinate_m / 10 ^ max_coordinate_e` (default `1000000.0`).
`min_points_count` is declared in `settings.py` (default 3) but, as the
theorems below establish, never read by the service code. -/

structure Settings where
  max_coordinate_m : Int := 1000000
  max_coordinate_e : Nat := 0
  max_name_length : Nat := 255
  max_points_count : Nat := 10000
  min_points_count : Nat := 3

/-- The defaults of `settings.py`. -/
def defaultSettings : Settings := {}

/-- Rational value of the configured maximum coordinate. -/
def maxCoordVal (cfg : Settings) : ℚ := floatVal cfg.max_coordinate_m cfg.max_coordinate_e
/-- Executable form of `abs(coordinate) > MAX_COORDINATE` for a finite
numeric value against the configured maximum. -/
def coordAbsGtMax (cfg : Settings) : PyVal → Bool
  | .vBool b => ratAbsGt (if b then 1 else 0) 0 cfg.max_coordinate_m cfg.max_coordinate_e
  | .vInt n => ratAbsGt n 0 cfg.max_coordinate_m cfg.max_coordinate_e
  | .vFloat m e => ratAbsGt m e cfg.max_coordinate_m cfg.max_coordinate_e
  | _ => false


/-- Python `str(...)` of the configured maximum coordinate, as it is
interpolated into the too-large error message. -/
def maxCoordStr (cfg : Settings) : String :=
  String.mk (floatChars cfg.max_coordinate_m cfg.max_coordinate_e)

/-- Kinds of Python exception the modelled code can raise: the service
raises `ValueError` for every validation failure, and `len()` on a
non-sequence raises `TypeError`. -/
inductive PyErr where
  | valueError (msg : String)
  | typeError (msg : String)
deriving DecidableEq

/-! ### Store layer (`app/models/polygon.py`, `app/database/repository.py`) -/

/-- Model of `JSONEncodedList.process_bind_param`: `None` maps to SQL
`NULL`, anything else to its `json.dumps` text. -/
def process_bind_param (value : Option PyVal) : Option String :=
  value.map json_dumps

/-- Model of `JSONEncodedList.process_result_value`: SQL `NULL` or
blank text maps to Python `None`; otherwise the text is `json.loads`-ed,
a non-list decode result or a decode failure yielding the empty list
instead of an exception. The blank test models `value.strip() == ""`. -/
def process_result_value (value : Option String) : PyVal :=
  match value with
  | none => .vNone
  | some v =>
    if pyStrip v = "" then .vNone
    else
      match json_loads v with
      | .error _ => .vList []
      | .ok (.vList xs) => .vList xs
      | .ok _ => .vList []

/-- A row of the `polygons` table: integer primary key, name, and the
points serialized to a nullable text column. -/
structure Row where
  id : Nat
  name : String
  points_text : Option String
deriving DecidableEq

/-- The database: the `polygons` table in primary-key order together with
the next auto-increment id. SQLite assigns ids from 1. -/
structure DB where
  rows : List Row
  nextId : Nat
deriving DecidableEq

/-- A freshly created database. -/
def DB.empty : DB := ⟨[], 1⟩

/-- A polygon entity as the ORM materializes it: the `points` attribute
has been through `process_result_value`. -/
structure PolygonEnt where
  id : Nat
  name : String
  points : PyVal

/-- Model of `PolygonRepository.find_all`: every row, in primary-key
order, with points decoded by the column type. -/
def find_all (db : DB) : List PolygonEnt :=
  db.rows.map (fun r => ⟨r.id, r.name, process_result_value r.points_text⟩)

/-- Model of `PolygonRepository.save`: insert one row with the next
auto-increment id, the points bound through `process_bind_param`; the
returned entity is refreshed from the database, so its points have been
decoded back by `process_result_value`. -/
def save (db : DB) (name : String) (points : PyVal) : PolygonEnt × DB :=
  let text := process_bind_param (some points)
  (⟨db.nextId, name, process_result_value text⟩,
   ⟨db.rows ++ [⟨db.nextId, name, text⟩], db.nextId + 1⟩)

/-- Model of `PolygonRepository.delete_by_id`: delete the rows whose id
matches and return how many were removed. -/
def delete_by_id (db : DB) (polygon_id : Nat) : Nat × DB :=
  let remaining := db.rows.filter (fun r => r.id != polygon_id)
  (db.rows.length - remaining.length, ⟨remaining, db.nextId⟩)

/-! ### Service layer (`app/services/polygon_service.py`)

The five-second artificial delay has no observable effect on any value or
state and is not modelled. -/

/-- Python `len(x)`: defined for lists and strings, a `TypeError` for
everything else. -/
def pyLen : PyVal → Except PyErr Nat
  | .vList xs => .ok xs.length
  | .vStr s => .ok s.length
  | _ => .error (.typeError "object has no len()")

/-- Python iteration over a point value: the elements of a list, or the
one-character strings of a string. Only called after `pyLen` succeeded. -/
def pyElems : PyVal → List PyVal
  | .vList xs => xs
  | .vStr s => s.data.map (fun c => .vStr (String.mk [c]))
  | _ => []

/-- The checks `PolygonService._validate_points` runs on one coordinate,
in source order: `None`, `isinstance(_, (int, float))` (satisfied by
`bool`, a subclass of `int`), the NaN self-inequality test, equality with
positive or negative infinity, and the magnitude bound. -/
def validate_coordinate (cfg : Settings) (c : PyVal) : Except PyErr Unit :=
  if isNoneV c then .error (.valueError "Coordinate cannot be null")
  else if ¬ isNumberInst c then .error (.valueError "Coordinate must be a number")
  else if isNanV c then .error (.valueError "Coordinate cannot be NaN")
  else if isInfV c then .error (.valueError "Coordinate cannot be Infinite")
  else if coordAbsGtMax cfg c then
    .error (.valueError ("Coordinate value too large. Maximum allowed: " ++ maxCoordStr cfg))
  else .ok ()

/-- The coordinate loop of `_validate_points` over one point's elements. -/
def validate_coords (cfg : Settings) : List PyVal → Except PyErr Unit
  | [] => .ok ()
  | c :: cs => do
    validate_coordinate cfg c
    validate_coords cfg cs

/-- The body of the point loop of `_validate_points`:
`point is None or len(point) != 2`, then each coordinate. -/
def validate_point (cfg : Settings) (p : PyVal) : Except PyErr Unit :=
  if isNoneV p then .error (.valueError "Each point must have exactly 2 coordinates [x, y]")
  else do
    let n ← pyLen p
    if n ≠ 2 then .error (.valueError "Each point must have exactly 2 coordinates [x, y]")
    else validate_coords cfg (pyElems p)

/-- The point loop of `_validate_points`. -/
def validate_point_list (cfg : Settings) : List PyVal → Except PyErr Unit
  | [] => .ok ()
  | p :: ps => do
    validate_point cfg p
    validate_point_list cfg ps

/-- Model of `PolygonService._validate_points`: the too-many bound, then
every point in order, surfacing the first failure. -/
def validate_points (cfg : Settings) (points : List PyVal) : Except PyErr Unit :=
  if points.length > cfg.max_points_count then
    .error (.valueError ("Too many points. Maximum allowed: " ++ toString cfg.max_points_count))
  else validate_point_list cfg points

/-- Model of `PolygonService.get_all_polygons`: a read, leaving the
database unchanged. -/
def get_all_polygons (db : DB) : List PolygonEnt × DB :=
  (find_all db, db)

/-- Model of `PolygonService.create_polygon`, checks in source order:
blank name (`not name or not name.strip()`), untrimmed name length
against the configured maximum, empty points (`not points`), the
hard-coded minimum of 3 points, `_validate_points`, then the save.
The database is returned unchanged on every failure. -/
def create_polygon (cfg : Settings) (db : DB) (name : String) (points : List PyVal) :
    Except PyErr PolygonEnt × DB :=
  if name = "" ∨ pyStrip name = "" then
    (.error (.valueError "Polygon name is required"), db)
  else if name.length > cfg.max_name_length then
    (.error (.valueError ("Polygon name too long. Maximum allowed: " ++
      toString cfg.max_name_length ++ " characters")), db)
  else if points.isEmpty then
    (.error (.valueError "Polygon points are required"), db)
  else if points.length < 3 then
    (.error (.valueError "Polygon must have at least 3 points"), db)
  else
    match validate_points cfg points with
    | .error e => (.error e, db)
    | .ok _ =>
      let (p, db') := save db name (.vList points)
      (.ok p, db')

/-- Model of `PolygonService.delete_polygon`: delete by id, report
whether the deleted count was positive. -/
def delete_polygon (db : DB) (polygon_id : Nat) : Bool × DB :=
  let (deleted_count, db') := delete_by_id db polygon_id
  (deleted_count > 0, db')

/-! ### Request schema (`app/schemas/polygon_schema.py`)

`CreatePolygonRequest`: the pydantic `Field` length constraints run
first, then the two `field_validator`s, in declaration order. Pydantic's
numeric coercion of the wire values is modelled as the identity on
already-numeric values; every theorem that reaches this layer supplies
numeric coordinates. A schema failure is surfaced as HTTP 422. -/

/-- The coordinate checks of the schema's `validate_points` validator:
`isinstance`, `math.isnan`, `math.isinf` — no `None` test and no
magnitude bound at this layer. -/
def schema_coord (c : PyVal) : Except String Unit :=
  if ¬ isNumberInst c then .error "Coordinate must be a number"
  else if isNanV c then .error "Coordinate cannot be NaN"
  else if isInfV c then .error "Coordinate cannot be Infinite"
  else .ok ()

/-- The coordinate loop of the schema validator over one point. -/
def schema_coords : List PyVal → Except String Unit
  | [] => .ok ()
  | c :: cs => do
    schema_coord c
    schema_coords cs

/-- The point loop of the schema's `validate_points` validator. -/
def schema_point_list : List PyVal → Except String Unit
  | [] => .ok ()
  | p :: ps => do
    (match pyLen p with
     | .error _ => .error "value is not a valid list"
     | .ok n =>
       if n ≠ 2 then .error "Each point must have exactly 2 coordinates [x, y]"
       else schema_coords (pyElems p))
    schema_point_list ps

/-- Model of `CreatePolygonRequest` validation: `Field` constraints
(name length 1–255, at least 3 points), then `validate_name`, then
`validate_points`. -/
def schema_validate (name : String) (points : List PyVal) : Except String Unit :=
  if name.length < 1 then .error "String should have at least 1 character"
  else if name.length > 255 then .error "String should have at most 255 characters"
  else if points.length < 3 then .error "List should have at least 3 items"
  else if name = "" ∨ pyStrip name = "" then .error "Polygon name is required"
  else if name.length > 255 then .error "Polygon name too long. Maximum allowed: 255 characters"
  else if points.isEmpty then .error "Points are required"
  else if points.length < 3 then .error "Polygon must have at least 3 points"
  else schema_point_list points

/-! ### Controllers (`app/controllers/polygon_controller.py`) -/

/-- Model of the POST `/api/polygons` endpoint: a schema failure is 422;
then the controller calls the service, mapping success to 201,
`ValueError` to 400 with the error's message as detail, and any other
exception to 500 with a generic detail. -/
def post_polygon (cfg : Settings) (db : DB) (name : String) (points : List PyVal) :
    (Nat × Option String) × DB :=
  match schema_validate name points with
  | .error m => ((422, some m), db)
  | .ok _ =>
    match create_polygon cfg db name points with
    | (.ok _, db') => ((201, none), db')
    | (.error (.valueError m), db') => ((400, some m), db')
    | (.error (.typeError _), db') => ((500, some "Failed to create polygon"), db')

/-- Model of the DELETE `/api/polygons/id` endpoint: 200 with the
message and the id when the service reports a deletion, else 404. -/
def delete_polygon_endpoint (db : DB) (polygon_id : Nat) :
    (Nat × Option (String × Nat)) × DB :=
  let (deleted, db') := delete_polygon db polygon_id
  if deleted then ((200, some ("Polygon deleted successfully", polygon_id)), db')
  else ((404, none), db')

/-! ### Well-formedness invariant of the database -/

/-- Invariant every reachable database satisfies: rows are in strictly
increasing primary-key order, every id is below the auto-increment
counter, and the counter starts at 1. -/
def DB.WF (db : DB) : Prop :=
  List.Sorted (· < ·) (db.rows.map Row.id) ∧
    (∀ r ∈ db.rows, r.id < db.nextId) ∧ 1 ≤ db.nextId

instance (db : DB) : Decidable db.WF := by
  unfold DB.WF
  infer_instance

/-! ### Goodness predicates used in theorem statements -/

/-- Values whose `json.dumps` text parses back to the same value: every
atom, with finite floats in canonical form (the form a double prints as).
Strings and nested lists are excluded because the round-trip theorems are
only needed for point lists. -/
def atomOkB : PyVal → Bool
  | .vNone => true
  | .vBool _ => true
  | .vInt _ => true
  | .vFloat m e => decide (canonF m e = (m, e))
  | .vInf => true
  | .vNInf => true
  | .vNan => true
  | .vStr _ => false
  | .vList _ => false

/-- A list of round-trippable atoms. -/
def pointOkB : PyVal → Bool
  | .vList ys => ys.all atomOkB
  | _ => false

/-- A coordinate every check of `_validate_points` accepts: a `bool`, an
`int`, or a canonical finite `float`, with magnitude within the
configured bound. -/
def goodCoordB (cfg : Settings) (c : PyVal) : Bool :=
  (match c with
   | .vBool _ => true
   | .vInt _ => true
   | .vFloat m e => decide (canonF m e = (m, e))
   | _ => false) && ! coordAbsGtMax cfg c

/-- A valid point: a 2-element list of valid coordinates. -/
def goodPointB (cfg : Settings) : PyVal → Bool
  | .vList [a, c] => goodCoordB cfg a && goodCoordB cfg c
  | _ => false

/-- A finite numeric value (passes the null, type, NaN and Infinity
checks; the magnitude is not constrained). -/
def finNumB : PyVal → Bool
  | .vBool _ => true
  | .vInt _ => true
  | .vFloat _ _ => true
  | _ => false

/-- A 2-element point of finite numeric coordinates. -/
def finPointB : PyVal → Bool
  | .vList [a, c] => finNumB a && finNumB c
  | _ => false

/-- Continuations after which a number or keyword can stop inside the
parser: end of input, a comma, or a closing bracket. -/
def SepHead (cs : List Char) : Prop :=
  cs = [] ∨ (∃ r, cs = ',' :: r) ∨ (∃ r, cs = ']' :: r)


/-! ### Named values used by concrete theorems -/

/-- The two error values the name checks of `create_polygon` can raise,
for the given configuration. -/
def isNameErr (cfg : Settings) (e : PyErr) : Prop :=
  e = .valueError "Polygon name is required" ∨
    e = .valueError ("Polygon name too long. Maximum allowed: " ++
      toString cfg.max_name_length ++ " characters")

/-- The too-few-points error value of `create_polygon`. -/
def tooFewErr : PyErr := .valueError "Polygon must have at least 3 points"

/-- A concrete valid points list (the spec's worked example, truncated to
three points). -/
def demoPoints : List PyVal :=
  [.vList [.vFloat 123 1, .vFloat 12 0], .vList [.vFloat 163 1, .vFloat 12 0],
    .vList [.vFloat 163 1, .vFloat 8 0]]

/-- A name of 256 characters that trims to the single character `a`. -/
def paddedName : String := String.mk ('a' :: List.replicate 255 ' ')

/-- A points list whose coordinates are all booleans. -/
def boolPoints : List PyVal :=
  [.vList [.vBool true, .vBool false], .vList [.vBool true, .vBool true],
    .vList [.vBool false, .vBool false]]

/-- Four valid points: more than the hard-coded minimum of three, fewer
than a configured minimum of five. -/
def fourPoints : List PyVal :=
  demoPoints ++ [.vList [.vFloat 123 1, .vFloat 8 0]]

/-- The default configuration with the (unused) minimum point count
raised to five. -/
def cfgMin5 : Settings := ⟨1000000, 0, 255, 10000, 5⟩

/-- A sample well-formed database with two rows. -/
def demoDB : DB :=
  ⟨[⟨1, "A", some "[[1, 2], [3, 4], [5, 6]]"⟩, ⟨2, "B", some "[[1.5, 2.0], [3, 4], [5, 6]]"⟩], 3⟩

/-- The too-large coordinate error, with the configured maximum
interpolated the way the f-string does it. -/
def tooLargeErr (cfg : Settings) : PyErr :=
  .valueError ("Coordinate value too large. Maximum allowed: " ++ maxCoordStr cfg)

/-- A finite numeric coordinate whose magnitude exceeds the configured
bound. -/
def overCoordB (cfg : Settings) (c : PyVal) : Bool :=
  finNumB c && coordAbsGtMax cfg c

/-- A point containing an over-bound coordinate. -/
def pointHasOverB (cfg : Settings) : PyVal → Bool
  | .vList cs => cs.any (overCoordB cfg)
  | _ => false

/-- Three otherwise valid points, one of which carries a coordinate of
twenty million — far over the default bound of one million. -/
def overPoints : List PyVal :=
  [.vList [.vFloat 123 1, .vFloat 12 0], .vList [.vInt 20000000, .vInt 0],
    .vList [.vFloat 163 1, .vFloat 8 0]]

/-- Substring containment, used to state that an error message carries
the configured bound. -/
def strContains (s sub : String) : Prop :=
  ∃ u v, s = u ++ sub ++ v

/-! ## Lemmas about decimal digit strings -/

/-- With enough fuel, `natDigitsRev` computes `Nat.digits 10`. -/
theorem natDigitsRev_eq (f : Nat) : ∀ n, n ≤ f → natDigitsRev f n = Nat.digits 10 n := by
  induction f with
  | zero =>
    intro n h
    obtain rfl : n = 0 := Nat.le_zero.mp h
    simp [natDigitsRev]
  | succ f ih =>
    intro n h
    by_cases hn : n = 0
    · simp [natDigitsRev, hn]
    · have hpos : 0 < n := Nat.pos_of_ne_zero hn
      have hdiv : n / 10 ≤ f :=
        Nat.lt_succ_iff.mp (Nat.lt_of_lt_of_le (Nat.div_lt_self hpos (by norm_num)) h)
      simp only [natDigitsRev, if_neg hn]
      rw [Nat.digits_def' (by norm_num : (1 : Nat) < 10) hpos, ih _ hdiv]

/-- The ASCII facts about the ten digit characters. -/
theorem digitChar_facts :
    ∀ d, d < 10 → (Char.ofNat (48 + d)).isDigit = true ∧ (Char.ofNat (48 + d)).toNat = 48 + d := by
  decide

/-- Every character emitted for a natural number is a digit. -/
theorem natToChars_isDigit (n : Nat) : ∀ c ∈ natToChars n, c.isDigit = true := by
  unfold natToChars
  split
  · intro c hc
    simp only [List.mem_singleton] at hc
    subst hc
    decide
  · intro c hc
    rw [natDigitsRev_eq n n le_rfl] at hc
    simp only [List.mem_reverse, List.mem_map] at hc
    obtain ⟨d, hd, rfl⟩ := hc
    exact (digitChar_facts d (Nat.digits_lt_base (by norm_num) hd)).1

/-- A natural number always prints at least one character. -/
theorem natToChars_ne_nil (n : Nat) : natToChars n ≠ [] := by
  unfold natToChars
  split
  · simp
  · rw [natDigitsRev_eq n n le_rfl]
    simp_all [Nat.digits_ne_nil_iff_ne_zero]

/-- Folding the digit accumulator from seed `s` shifts `s` past the whole
list. -/
theorem digitsToNat_foldl_shift (b : List Char) :
    ∀ s, List.foldl (fun a c => 10 * a + (c.toNat - 48)) s b = s * 10 ^ b.length + digitsToNat b := by
  induction b with
  | nil => intro s; simp [digitsToNat]
  | cons c t ih =>
    intro s
    simp only [List.foldl_cons, List.length_cons, digitsToNat]
    rw [ih (10 * s + (c.toNat - 48)), ih (10 * 0 + (c.toNat - 48))]
    ring

/-- Value of a concatenated digit string. -/
theorem digitsToNat_append (a b : List Char) :
    digitsToNat (a ++ b) = digitsToNat a * 10 ^ b.length + digitsToNat b := by
  unfold digitsToNat
  rw [List.foldl_append]
  exact digitsToNat_foldl_shift b _

/-- Leading zero characters do not change the value. -/
theorem digitsToNat_replicate_zeros (k : Nat) (ds : List Char) :
    digitsToNat (List.replicate k '0' ++ ds) = digitsToNat ds := by
  rw [digitsToNat_append]
  suffices h : digitsToNat (List.replicate k '0') = 0 by simp [h]
  induction k with
  | zero => rfl
  | succ k ih =>
    simpa [List.replicate_succ, digitsToNat, List.foldl_cons] using ih

/-- Printing then revaluing a digit list of bounded digits gives back
`Nat.ofDigits`. -/
theorem digitsToNat_rev_map (L : List Nat) (h : ∀ d ∈ L, d < 10) :
    digitsToNat ((L.map (fun d => Char.ofNat (48 + d))).reverse) = Nat.ofDigits 10 L := by
  induction L with
  | nil => rfl
  | cons d t ih =>
    simp only [List.map_cons, List.reverse_cons]
    rw [digitsToNat_append, ih (fun x hx => h x (List.mem_cons_of_mem d hx))]
    have hd : (Char.ofNat (48 + d)).toNat = 48 + d :=
      (digitChar_facts d (h d (List.mem_cons_self d t))).2
    simp only [digitsToNat, List.foldl_cons, List.foldl_nil, List.length_singleton, hd,
      Nat.ofDigits_cons]
    omega

/-- Printing a natural number and revaluing it is the identity. -/
theorem digitsToNat_natToChars (n : Nat) : digitsToNat (natToChars n) = n := by
  unfold natToChars
  split
  · simp_all [digitsToNat]
  · rw [natDigitsRev_eq n n le_rfl,
      digitsToNat_rev_map _ (fun d hd => Nat.digits_lt_base (by norm_num) hd),
      Nat.ofDigits_digits]

/-- The digit scanner consumes exactly an all-digit prefix followed by a
non-digit (or nothing). -/
theorem takeDigits_append (ds rest : List Char) (h1 : ∀ c ∈ ds, c.isDigit = true)
    (h2 : ∀ c, rest.head? = some c → c.isDigit = false) :
    takeDigits (ds ++ rest) = (ds, rest) := by
  induction ds with
  | nil =>
    cases rest with
    | nil => rfl
    | cons c t =>
      simp only [List.nil_append, takeDigits, h2 c rfl]
      simp
  | cons c t ih =>
    have hc : c.isDigit = true := h1 c (List.mem_cons_self c t)
    have ih2 : takeDigits (t.append rest) = (t, rest) :=
      ih (fun x hx => h1 x (List.mem_cons_of_mem c hx))
    simp only [List.cons_append, takeDigits, hc, if_true, ih2]

/-! ## Lemmas about number parsing -/

/-- A canonical fractional part is untouched by canonicalization. -/
theorem canonF_ndvd (m : Int) (e : Nat) (h : ¬(10 : Int) ∣ m) : canonF m (e + 1) = (m, e + 1) := by
  simp only [canonF]
  rw [if_neg]
  omega

/-- Stripping the one trailing zero of an integral float. -/
theorem canonF_mul10 (s : Int) : canonF (10 * s) 1 = (s, 0) := by
  simp only [canonF]
  rw [if_pos (by omega)]
  have h : 10 * s / 10 = s := by omega
  rw [h]

/-- A separator continuation never starts with a digit. -/
theorem sepHead_not_digit (rest : List Char) (h : SepHead rest) :
    ∀ c, rest.head? = some c → c.isDigit = false := by
  rcases h with rfl | ⟨r, rfl⟩ | ⟨r, rfl⟩ <;> intro c hc <;> simp at hc <;> subst hc <;> decide

/-- Parsing the digits of a natural number against a separator
continuation yields the integer value. -/
theorem parseNum_nat (neg : Bool) (a : Nat) (rest : List Char) (h : SepHead rest) :
    parseNumAfterSign neg (natToChars a ++ rest) =
      .ok (.vInt (if neg then -(a : Int) else (a : Int)), rest) := by
  unfold parseNumAfterSign
  rw [takeDigits_append _ _ (natToChars_isDigit a) (sepHead_not_digit rest h)]
  simp only [natToChars_ne_nil a, if_neg, ite_false]
  rcases h with rfl | ⟨r, rfl⟩ | ⟨r, rfl⟩ <;>
    simp [digitsToNat_natToChars]

/-- Padding preserves digit-ness. -/
theorem padToLen_isDigit (ds : List Char) (k : Nat) (h : ∀ c ∈ ds, c.isDigit = true) :
    ∀ c ∈ padToLen ds k, c.isDigit = true := by
  intro c hc
  rcases List.mem_append.mp hc with hc | hc
  · rw [List.eq_of_mem_replicate hc]
    decide
  · exact h c hc

/-- Length of a padded digit list. -/
theorem padToLen_length (ds : List Char) (k : Nat) :
    (padToLen ds k).length = max k ds.length := by
  simp [padToLen]
  omega

/-- Parsing an integral float body (`".0"` suffix) yields the float with
an empty fractional part. -/
theorem parseNum_floatBody_zero (neg : Bool) (a : Nat) (rest : List Char) (h : SepHead rest) :
    parseNumAfterSign neg (floatBody a 0 ++ rest) =
      .ok (.vFloat (if neg then -(a : Int) else (a : Int)) 0, rest) := by
  unfold parseNumAfterSign floatBody
  have e1 : ((natToChars a ++ ['.', '0']) ++ rest : List Char) =
      natToChars a ++ ('.' :: '0' :: rest) := by simp
  rw [if_pos rfl, e1,
    takeDigits_append _ _ (natToChars_isDigit a) (by intro c hc; simp at hc; subst hc; decide)]
  simp only [natToChars_ne_nil a, if_neg, ite_false]
  have e2 : ('0' :: rest : List Char) = ['0'] ++ rest := rfl
  rw [e2, takeDigits_append ['0'] rest (by intro c hc; simp at hc; subst hc; decide)
    (sepHead_not_digit rest h)]
  have e3 : digitsToNat (natToChars a ++ ['0']) = 10 * a := by
    rw [digitsToNat_append, digitsToNat_natToChars]
    simp [digitsToNat]
    ring
  simp only [e3]
  have e4 : (if neg then -((10 * a : Nat) : Int) else ((10 * a : Nat) : Int)) =
      10 * (if neg then -(a : Int) else (a : Int)) := by
    cases neg <;> simp
  simp only [List.length_singleton, e4, canonF_mul10]
  simp

/-- Parsing a float body with a nonempty canonical fractional part yields
the float unchanged. -/
theorem parseNum_floatBody_pos (neg : Bool) (a e : Nat) (he : e ≠ 0)
    (hnd : ¬(10 : Int) ∣ (a : Int)) (rest : List Char) (h : SepHead rest) :
    parseNumAfterSign neg (floatBody a e ++ rest) =
      .ok (.vFloat (if neg then -(a : Int) else (a : Int)) e, rest) := by
  unfold parseNumAfterSign floatBody
  rw [if_neg he]
  have hds_dig : ∀ c ∈ padToLen (natToChars a) (e + 1), c.isDigit = true :=
    padToLen_isDigit _ _ (natToChars_isDigit a)
  have hL : e + 1 ≤ (padToLen (natToChars a) (e + 1)).length := by
    rw [padToLen_length]
    omega
  set ds := padToLen (natToChars a) (e + 1) with hds
  have h_ip_dig : ∀ c ∈ ds.take (ds.length - e), c.isDigit = true :=
    fun c hc => hds_dig c (List.take_subset _ _ hc)
  have h_fr_dig : ∀ c ∈ ds.drop (ds.length - e), c.isDigit = true :=
    fun c hc => hds_dig c (List.drop_subset _ _ hc)
  have e1 : ((ds.take (ds.length - e) ++ '.' :: ds.drop (ds.length - e)) ++ rest : List Char) =
      ds.take (ds.length - e) ++ ('.' :: (ds.drop (ds.length - e) ++ rest)) := by simp
  rw [e1, takeDigits_append _ _ h_ip_dig (by intro c hc; simp at hc; subst hc; decide)]
  have h_ip_ne : ds.take (ds.length - e) ≠ [] := by
    have : (ds.take (ds.length - e)).length = ds.length - e := by
      rw [List.length_take]
      omega
    intro hnil
    rw [hnil] at this
    simp at this
    omega
  simp only [h_ip_ne, if_neg, ite_false]
  rw [takeDigits_append _ _ h_fr_dig (sepHead_not_digit rest h)]
  have h_fr_len : (ds.drop (ds.length - e)).length = e := by
    rw [List.length_drop]
    omega
  have h_fr_ne : ds.drop (ds.length - e) ≠ [] := by
    intro hnil
    rw [hnil] at h_fr_len
    simp at h_fr_len
    omega
  simp only [h_fr_ne, if_neg, ite_false]
  have e2 : digitsToNat (ds.take (ds.length - e) ++ ds.drop (ds.length - e)) = a := by
    rw [List.take_append_drop, hds]
    unfold padToLen
    rw [digitsToNat_replicate_zeros, digitsToNat_natToChars]
  rw [e2, h_fr_len]
  obtain ⟨e', rfl⟩ := Nat.exists_eq_succ_of_ne_zero he
  have hc : canonF (if neg then -(a : Int) else (a : Int)) (e' + 1) =
      (if neg then -(a : Int) else (a : Int), e' + 1) := by
    apply canonF_ndvd
    cases neg <;> simp [hnd]
  simp only [hc]

/-! ## Lemmas about the value parser -/

/-- A digit character is not whitespace and not any dispatch character of
the parser. -/
theorem digit_char_facts (c : Char) (hc : c.isDigit = true) :
    ¬(c = ' ' ∨ c = '\t' ∨ c = '\n' ∨ c = '\r') ∧ c ≠ '[' ∧ c ≠ '"' ∧ c ≠ 'n' ∧ c ≠ 't' ∧
      c ≠ 'f' ∧ c ≠ 'N' ∧ c ≠ 'I' ∧ c ≠ '-' := by
  have hlo : 48 ≤ c.toNat := by
    simp [Char.isDigit, decide_eq_true_eq] at hc
    exact hc.1
  have hhi : c.toNat ≤ 57 := by
    simp [Char.isDigit, decide_eq_true_eq] at hc
    exact hc.2
  refine ⟨?_, ?_, ?_, ?_, ?_, ?_, ?_, ?_, ?_⟩
  · rintro (h | h | h | h) <;> subst h <;> exact absurd hlo (by decide)
  all_goals
    intro h
    subst h
    first
    | exact absurd hlo (by decide)
    | exact absurd hhi (by decide)

/-- The parser ignores a leading space. -/
theorem parseVal_ws (f : Nat) (cs : List Char) : parseVal f (' ' :: cs) = parseVal f cs := by
  cases f with
  | zero => rfl
  | succ f =>
    have h : skipWs (' ' :: cs) = skipWs cs := by simp [skipWs]
    simp only [parseVal, h]

/-- On a digit head the parser dispatches to the number scanner. -/
theorem parseVal_digit_head (f : Nat) (c : Char) (hc : c.isDigit = true) (r : List Char) :
    parseVal (f + 1) (c :: r) = parseNumAfterSign false (c :: r) := by
  have h := digit_char_facts c hc
  have hsw : skipWs (c :: r) = c :: r := by
    simp only [skipWs, if_neg h.1]
  simp only [parseVal, hsw, h.2.1, h.2.2.1, h.2.2.2.1, h.2.2.2.2.1, h.2.2.2.2.2.1,
    h.2.2.2.2.2.2.1, h.2.2.2.2.2.2.2.1, h.2.2.2.2.2.2.2.2, if_false, hc, if_true]

/-- On a minus followed by a digit the parser dispatches to the negative
number scanner. -/
theorem parseVal_minus_digit (f : Nat) (c : Char) (hc : c.isDigit = true) (r : List Char) :
    parseVal (f + 1) ('-' :: c :: r) = parseNumAfterSign true (c :: r) := by
  have h := digit_char_facts c hc
  simp [parseVal, skipWs, dropLit, h.2.2.2.2.2.2.2.1]

/-- A printed natural number starts with a digit. -/
theorem natToChars_cons (a : Nat) :
    ∃ c cs, natToChars a = c :: cs ∧ c.isDigit = true := by
  cases h : natToChars a with
  | nil => exact absurd h (natToChars_ne_nil a)
  | cons c cs =>
    refine ⟨c, cs, rfl, natToChars_isDigit a c ?_⟩
    rw [h]
    exact List.mem_cons_self c cs

/-- The parser reads back a printed integer. -/
theorem parseVal_intChars (f : Nat) (n : Int) (rest : List Char) (h : SepHead rest) :
    parseVal (f + 1) (intChars n ++ rest) = .ok (.vInt n, rest) := by
  obtain ⟨c, cs, hcons, hdig⟩ := natToChars_cons n.natAbs
  by_cases hn : n < 0
  · have e1 : (intChars n ++ rest : List Char) = '-' :: c :: (cs ++ rest) := by
      simp [intChars, if_pos hn, hcons]
    rw [e1, parseVal_minus_digit f c hdig]
    have e2 : (c :: (cs ++ rest) : List Char) = natToChars n.natAbs ++ rest := by
      simp [hcons]
    rw [e2, parseNum_nat true n.natAbs rest h]
    have h3 : -(n.natAbs : Int) = n := by omega
    simp only [if_pos rfl, h3, if_true]
  · have e1 : (intChars n ++ rest : List Char) = c :: (cs ++ rest) := by
      simp [intChars, if_neg hn, hcons]
    rw [e1, parseVal_digit_head f c hdig]
    have e2 : (c :: (cs ++ rest) : List Char) = natToChars n.natAbs ++ rest := by
      simp [hcons]
    rw [e2, parseNum_nat false n.natAbs rest h]
    have h3 : (n.natAbs : Int) = n := by omega
    simp [h3]

/-- A printed float body starts with a digit. -/
theorem floatBody_cons (a e : Nat) :
    ∃ c cs, floatBody a e = c :: cs ∧ c.isDigit = true := by
  unfold floatBody
  by_cases he : e = 0
  · subst he
    obtain ⟨c, cs, hcons, hdig⟩ := natToChars_cons a
    exact ⟨c, cs ++ ['.', '0'], by simp [hcons], hdig⟩
  · rw [if_neg he]
    have hL : e + 1 ≤ (padToLen (natToChars a) (e + 1)).length := by
      rw [padToLen_length]
      omega
    set ds := padToLen (natToChars a) (e + 1) with hds
    cases htake : ds.take (ds.length - e) with
    | nil =>
      have : (ds.take (ds.length - e)).length = ds.length - e := by
        rw [List.length_take]
        omega
      rw [htake] at this
      simp at this
      omega
    | cons c cs =>
      refine ⟨c, cs ++ '.' :: ds.drop (ds.length - e), by simp [htake], ?_⟩
      have hmem : c ∈ ds.take (ds.length - e) := by
        rw [htake]
        exact List.mem_cons_self c cs
      exact padToLen_isDigit _ _ (natToChars_isDigit a) c (List.take_subset _ _ hmem)

/-- The second component of canonicalization never grows. -/
theorem canonF_snd_le (e : Nat) : ∀ m : Int, (canonF m e).2 ≤ e := by
  induction e with
  | zero => intro m; simp [canonF]
  | succ e ih =>
    intro m
    simp only [canonF]
    split
    · exact Nat.le_succ_of_le (ih (m / 10))
    · exact le_rfl

/-- A float that is canonical with a nonempty fractional part has a
mantissa not divisible by ten. -/
theorem canonical_ndvd (m : Int) (e : Nat) (hc : canonF m (e + 1) = (m, e + 1)) :
    ¬(10 : Int) ∣ m := by
  intro hdvd
  have hmod : m % 10 = 0 := by omega
  have h1 : canonF m (e + 1) = canonF (m / 10) e := by
    simp only [canonF, if_pos hmod]
  have h2 : (canonF (m / 10) e).2 ≤ e := canonF_snd_le e (m / 10)
  rw [h1] at hc
  rw [hc] at h2
  omega

/-- The parser reads back a printed finite float in canonical form. -/
theorem parseVal_floatChars (f : Nat) (m : Int) (e : Nat) (rest : List Char)
    (hcanon : canonF m e = (m, e)) (h : SepHead rest) :
    parseVal (f + 1) (floatChars m e ++ rest) = .ok (.vFloat m e, rest) := by
  obtain ⟨c, cs, hcons, hdig⟩ := floatBody_cons m.natAbs e
  have hbody : ∀ neg : Bool, parseNumAfterSign neg (floatBody m.natAbs e ++ rest) =
      .ok (.vFloat (if neg then -(m.natAbs : Int) else (m.natAbs : Int)) e, rest) := by
    intro neg
    cases e with
    | zero => exact parseNum_floatBody_zero neg m.natAbs rest h
    | succ e' =>
      apply parseNum_floatBody_pos neg m.natAbs (e' + 1) (Nat.succ_ne_zero e') _ rest h
      have hnd := canonical_ndvd m e' hcanon
      omega
  by_cases hm : m < 0
  · have e1 : (floatChars m e ++ rest : List Char) = '-' :: c :: (cs ++ rest) := by
      simp [floatChars, if_pos hm, hcons]
    rw [e1, parseVal_minus_digit f c hdig]
    have e2 : (c :: (cs ++ rest) : List Char) = floatBody m.natAbs e ++ rest := by
      simp [hcons]
    rw [e2, hbody true]
    have h3 : -(m.natAbs : Int) = m := by omega
    simp only [if_pos rfl, h3, if_true]
  · have e1 : (floatChars m e ++ rest : List Char) = c :: (cs ++ rest) := by
      simp [floatChars, if_neg hm, hcons]
    rw [e1, parseVal_digit_head f c hdig]
    have e2 : (c :: (cs ++ rest) : List Char) = floatBody m.natAbs e ++ rest := by
      simp [hcons]
    rw [e2, hbody false]
    have h3 : (m.natAbs : Int) = m := by omega
    simp [h3]

/-- The parser reads back the printed form of every round-trippable
atom. -/
theorem parseVal_atom (v : PyVal) (hv : atomOkB v = true) (f : Nat) (rest : List Char)
    (h : SepHead rest) :
    parseVal (f + 1) (dumpChars v ++ rest) = .ok (v, rest) := by
  cases v with
  | vNone => simp [parseVal, dumpChars, skipWs, dropLit]
  | vBool b => cases b <;> simp [parseVal, dumpChars, skipWs, dropLit]
  | vInt n =>
    have e1 : dumpChars (.vInt n) = intChars n := rfl
    rw [e1, parseVal_intChars f n rest h]
  | vFloat m e =>
    have hcanon : canonF m e = (m, e) := by
      simpa [atomOkB] using hv
    have e1 : dumpChars (.vFloat m e) = floatChars m e := rfl
    rw [e1, parseVal_floatChars f m e rest hcanon h]
  | vInf => simp [parseVal, dumpChars, skipWs, dropLit]
  | vNInf => simp [parseVal, dumpChars, skipWs, dropLit]
  | vNan => simp [parseVal, dumpChars, skipWs, dropLit]
  | vStr s => simp [atomOkB] at hv
  | vList xs => simp [atomOkB] at hv

/-! ## Lemmas about array parsing -/

/-- A digit is neither a closing bracket nor a comma. -/
theorem digit_char_ne_close (c : Char) (hc : c.isDigit = true) : c ≠ ']' ∧ c ≠ ',' := by
  have hlo : 48 ≤ c.toNat := by
    simp [Char.isDigit, decide_eq_true_eq] at hc
    exact hc.1
  have hhi : c.toNat ≤ 57 := by
    simp [Char.isDigit, decide_eq_true_eq] at hc
    exact hc.2
  constructor
  · intro h
    subst h
    exact absurd hhi (by decide)
  · intro h
    subst h
    exact absurd hlo (by decide)

/-- The printed form of an atom or an array starts with a character
that is not whitespace and not a closing bracket. -/
theorem dumpChars_head (v : PyVal) (hv : atomOkB v = true ∨ ∃ ys, v = .vList ys) :
    ∃ c cs, dumpChars v = c :: cs ∧
      ¬(c = ' ' ∨ c = '\t' ∨ c = '\n' ∨ c = '\r') ∧ c ≠ ']' := by
  cases v with
  | vNone => exact ⟨'n', _, rfl, by decide, by decide⟩
  | vBool b =>
    cases b
    · exact ⟨'f', _, rfl, by decide, by decide⟩
    · exact ⟨'t', _, rfl, by decide, by decide⟩
  | vInt n =>
    obtain ⟨c, cs, hcons, hdig⟩ := natToChars_cons n.natAbs
    by_cases hn : n < 0
    · exact ⟨'-', natToChars n.natAbs, by simp [dumpChars, intChars, if_pos hn], by decide,
        by decide⟩
    · refine ⟨c, cs, by simp [dumpChars, intChars, if_neg hn, hcons], ?_, ?_⟩
      · exact (digit_char_facts c hdig).1
      · exact (digit_char_ne_close c hdig).1
  | vFloat m e =>
    obtain ⟨c, cs, hcons, hdig⟩ := floatBody_cons m.natAbs e
    by_cases hm : m < 0
    · exact ⟨'-', floatBody m.natAbs e, by simp [dumpChars, floatChars, if_pos hm], by decide,
        by decide⟩
    · refine ⟨c, cs, by simp [dumpChars, floatChars, if_neg hm, hcons], ?_, ?_⟩
      · exact (digit_char_facts c hdig).1
      · exact (digit_char_ne_close c hdig).1
  | vInf => exact ⟨'I', _, rfl, by decide, by decide⟩
  | vNInf => exact ⟨'-', _, rfl, by decide, by decide⟩
  | vNan => exact ⟨'N', _, rfl, by decide, by decide⟩
  | vStr s =>
    rcases hv with hv | ⟨ys, hys⟩
    · simp [atomOkB] at hv
    · cases hys
  | vList xs => exact ⟨'[', _, rfl, by decide, by decide⟩

/-- Skipping whitespace leaves a non-whitespace head alone. -/
theorem skipWs_cons (c : Char) (r : List Char)
    (h : ¬(c = ' ' ∨ c = '\t' ∨ c = '\n' ∨ c = '\r')) : skipWs (c :: r) = c :: r := by
  simp only [skipWs, if_neg h]

/-- Every value prints at least one character. -/
theorem dumpChars_length_pos (v : PyVal) : 0 < (dumpChars v).length := by
  cases v with
  | vNone => simp [dumpChars]
  | vBool b => cases b <;> simp [dumpChars]
  | vInt n =>
    have h : 0 < (natToChars n.natAbs).length :=
      List.length_pos.mpr (natToChars_ne_nil n.natAbs)
    simp only [dumpChars, intChars, List.length_append]
    omega
  | vFloat m e =>
    obtain ⟨c, cs, hcons, _⟩ := floatBody_cons m.natAbs e
    simp only [dumpChars, floatChars, List.length_append, hcons, List.length_cons]
    omega
  | vInf => simp [dumpChars]
  | vNInf => simp [dumpChars]
  | vNan => simp [dumpChars]
  | vStr s => simp [dumpChars]
  | vList xs => simp [dumpChars]

/-- Dumping n items produces at least n - 1 characters. -/
theorem dumpElems_length_ge (xs : List PyVal) : xs.length ≤ (dumpElems xs).length + 1 := by
  induction xs with
  | nil => simp
  | cons x t ih =>
    cases t with
    | nil => simp
    | cons y t' =>
      have hx := dumpChars_length_pos x
      simp only [dumpElems, List.length_append, List.length_cons]
      simp at ih ⊢
      omega

/-- `parseElems` ignores a leading space whenever its item parser does. -/
theorem parseElems_ws (pv : List Char → Except String (PyVal × List Char))
    (hws : ∀ cs, pv (' ' :: cs) = pv cs) (k : Nat) (cs : List Char) :
    parseElems pv k (' ' :: cs) = parseElems pv k cs := by
  cases k with
  | zero => rfl
  | succ k => simp only [parseElems, hws]

/-- The item loop reads back a printed nonempty item list up to the
closing bracket. -/
theorem parseElems_round (pv : List Char → Except String (PyVal × List Char))
    (hws : ∀ cs, pv (' ' :: cs) = pv cs) :
    ∀ xs : List PyVal, xs ≠ [] →
      (∀ x ∈ xs, ∀ rest, SepHead rest → pv (dumpChars x ++ rest) = .ok (x, rest)) →
      ∀ k, xs.length ≤ k → ∀ rest,
        parseElems pv k (dumpElems xs ++ ']' :: rest) = .ok (xs, rest) := by
  intro xs
  induction xs with
  | nil => intro hne; exact absurd rfl hne
  | cons x t ih =>
    intro _ h1 k hk rest
    cases k with
    | zero => simp at hk
    | succ k =>
      cases t with
      | nil =>
        have hx := h1 x (List.mem_cons_self x []) (']' :: rest) (Or.inr (Or.inr ⟨rest, rfl⟩))
        simp only [dumpElems, parseElems, hx, Bind.bind, Except.bind]
        rw [skipWs_cons ']' rest (by decide)]
        simp
      | cons y t' =>
        have e1 : (dumpElems (x :: y :: t') ++ ']' :: rest : List Char) =
            dumpChars x ++ (',' :: ' ' :: (dumpElems (y :: t') ++ ']' :: rest)) := by
          simp [dumpElems]
        have hx := h1 x (List.mem_cons_self x (y :: t'))
          (',' :: ' ' :: (dumpElems (y :: t') ++ ']' :: rest)) (Or.inr (Or.inl ⟨_, rfl⟩))
        have hrec := ih (by simp) (fun z hz => h1 z (List.mem_cons_of_mem x hz)) k
          (by simp at hk ⊢; omega) rest
        simp only [parseElems, e1, hx, Bind.bind, Except.bind]
        rw [skipWs_cons ',' _ (by decide)]
        simp only [if_neg (by decide : ¬(',' : Char) = ']'), if_pos rfl]
        rw [parseElems_ws pv hws, hrec]
        simp

/-- One unfolding of the parser on an opening bracket. -/
theorem parseVal_open_bracket (f : Nat) (r : List Char) :
    parseVal (f + 1) ('[' :: r) =
      (match skipWs r with
       | [] => .error "unterminated array"
       | c2 :: r2 =>
         if c2 = ']' then .ok (.vList [], r2)
         else do
           let (vs, r3) ← parseElems (parseVal f) ((c2 :: r2).length + 1) (c2 :: r2)
           .ok (.vList vs, r3)) := rfl

/-- The parser reads back a printed array whenever it reads back each
item. -/
theorem parseVal_list (f : Nat) (P : PyVal → Bool)
    (hgood : ∀ v, P v = true → atomOkB v = true ∨ ∃ ys, v = .vList ys)
    (helem : ∀ v, P v = true → ∀ rest, SepHead rest →
      parseVal (f + 1) (dumpChars v ++ rest) = .ok (v, rest))
    (xs : List PyVal) (hxs : xs.all P = true) (rest : List Char) :
    parseVal (f + 2) (dumpChars (.vList xs) ++ rest) = .ok (.vList xs, rest) := by
  cases xs with
  | nil =>
    have e0 : (dumpChars (.vList []) ++ rest : List Char) = '[' :: ']' :: rest := by
      simp [dumpChars, dumpElems]
    rw [e0, parseVal_open_bracket]
    rw [skipWs_cons ']' _ (by decide)]
    simp
  | cons x t =>
    have hPx : P x = true := by
      simp [List.all_cons] at hxs
      exact hxs.1
    obtain ⟨c, cs, hcons, hnws, hnbr⟩ := dumpChars_head x (hgood x hPx)
    obtain ⟨R, hR⟩ : ∃ R, dumpElems (x :: t) = dumpChars x ++ R := by
      cases t with
      | nil => exact ⟨[], by simp [dumpElems]⟩
      | cons y t' => exact ⟨',' :: ' ' :: dumpElems (y :: t'), rfl⟩
    have e0 : (dumpChars (.vList (x :: t)) ++ rest : List Char) =
        '[' :: (c :: (cs ++ R ++ ']' :: rest)) := by
      simp [dumpChars, hR, hcons]
    rw [e0, parseVal_open_bracket]
    rw [skipWs_cons c _ hnws]
    simp only [if_neg hnbr]
    have e1 : (c :: (cs ++ R ++ ']' :: rest) : List Char) =
        dumpElems (x :: t) ++ ']' :: rest := by
      simp [hR, hcons]
    rw [e1]
    have hk : (x :: t).length ≤ (dumpElems (x :: t) ++ ']' :: rest).length + 1 := by
      have h1 := dumpElems_length_ge (x :: t)
      simp only [List.length_append, List.length_cons] at h1 ⊢
      omega
    have helem' : ∀ z ∈ x :: t, ∀ rest', SepHead rest' →
        parseVal (f + 1) (dumpChars z ++ rest') = .ok (z, rest') := by
      intro z hz rest' hsep
      have hPz : P z = true := by
        simp only [List.all_eq_true] at hxs
        exact hxs z hz
      exact helem z hPz rest' hsep
    rw [parseElems_round (parseVal (f + 1)) (parseVal_ws (f + 1)) (x :: t) (by simp) helem'
      _ hk rest]
    simp [Bind.bind, Except.bind]

/-- The parser reads back a printed array of round-trippable atoms. -/
theorem parseVal_atomList (f : Nat) (xs : List PyVal) (hxs : xs.all atomOkB = true)
    (rest : List Char) :
    parseVal (f + 2) (dumpChars (.vList xs) ++ rest) = .ok (.vList xs, rest) :=
  parseVal_list f atomOkB (fun _ hv => Or.inl hv)
    (fun v hv rest' hsep => parseVal_atom v hv f rest' hsep) xs hxs rest

/-- The parser reads back a printed array of arrays of round-trippable
atoms — the shape of a stored points list. -/
theorem parseVal_pointsList (f : Nat) (xss : List PyVal) (hxss : xss.all pointOkB = true)
    (rest : List Char) :
    parseVal (f + 3) (dumpChars (.vList xss) ++ rest) = .ok (.vList xss, rest) := by
  have h := parseVal_list (f + 1) pointOkB ?good ?elem xss hxss rest
  · exact h
  case good =>
    intro v hv
    cases v <;> simp [pointOkB] at hv ⊢
  case elem =>
    intro v hv rest' _
    cases v with
    | vList ys => exact parseVal_atomList f ys (by simpa [pointOkB] using hv) rest'
    | vNone => simp [pointOkB] at hv
    | vBool b => simp [pointOkB] at hv
    | vInt n => simp [pointOkB] at hv
    | vFloat m e => simp [pointOkB] at hv
    | vInf => simp [pointOkB] at hv
    | vNInf => simp [pointOkB] at hv
    | vNan => simp [pointOkB] at hv
    | vStr s => simp [pointOkB] at hv

/-- `json.loads` inverts `json.dumps` on every well-formed points list. -/
theorem json_roundtrip (points : List PyVal) (hp : points.all pointOkB = true) :
    json_loads (json_dumps (.vList points)) = .ok (.vList points) := by
  unfold json_loads json_dumps
  have hdata : (String.mk (dumpChars (.vList points))).data = dumpChars (.vList points) := rfl
  rw [hdata]
  have hlen : (dumpChars (.vList points)).length = (dumpElems points).length + 2 := by
    simp [dumpChars]
  have hfuel : (dumpChars (.vList points)).length + 1 = (dumpElems points).length + 3 := by
    omega
  rw [hfuel]
  have hinput : dumpChars (.vList points) = dumpChars (.vList points) ++ [] := by simp
  rw [hinput, parseVal_pointsList (dumpElems points).length points hp []]
  simp [Bind.bind, Except.bind, skipWs]

/-! ## Lemmas about the store layer -/

/-- The dumped text of an array is never blank, so the decoder's blank
guard does not trip on stored points. -/
theorem pyStrip_dumps_list_ne (xs : List PyVal) : pyStrip (json_dumps (.vList xs)) ≠ "" := by
  unfold pyStrip json_dumps
  intro h
  have hX : ((((dumpChars (.vList xs)).dropWhile Char.isWhitespace).reverse.dropWhile
      Char.isWhitespace).reverse : List Char) = [] := congrArg String.data h
  have hshape : dumpChars (.vList xs) = '[' :: (dumpElems xs ++ [']']) := rfl
  rw [hshape] at hX
  rw [List.dropWhile_cons_of_neg (by decide)] at hX
  simp only [List.reverse_eq_nil_iff, List.dropWhile_eq_nil_iff] at hX
  have hmem : ('[' : Char) ∈ (('[' :: (dumpElems xs ++ [']'])).reverse : List Char) := by
    simp
  exact absurd (hX '[' hmem) (by decide)

/-- Encoding then decoding a well-formed points list through the store's
column type is the identity. -/
theorem store_roundtrip (points : List PyVal) (hp : points.all pointOkB = true) :
    process_result_value (process_bind_param (some (.vList points))) = .vList points := by
  unfold process_bind_param process_result_value
  simp only [Option.map]
  rw [if_neg (pyStrip_dumps_list_ne points), json_roundtrip points hp]

/-! ## Lemmas about validation and creation -/

/-- A valid coordinate passes every check of the coordinate loop. -/
theorem validate_coordinate_ok (cfg : Settings) (c : PyVal) (h : goodCoordB cfg c = true) :
    validate_coordinate cfg c = .ok () := by
  cases c with
  | vBool b =>
    have hmax : coordAbsGtMax cfg (.vBool b) = false := by
      simp [goodCoordB] at h
      exact h
    simp [validate_coordinate, isNoneV, isNumberInst, isNanV, isInfV, hmax]
  | vInt n =>
    have hmax : coordAbsGtMax cfg (.vInt n) = false := by
      simp [goodCoordB] at h
      exact h
    simp [validate_coordinate, isNoneV, isNumberInst, isNanV, isInfV, hmax]
  | vFloat m e =>
    have hmax : coordAbsGtMax cfg (.vFloat m e) = false := by
      simp [goodCoordB] at h
      exact h.2
    simp [validate_coordinate, isNoneV, isNumberInst, isNanV, isInfV, hmax]
  | vNone => simp [goodCoordB] at h
  | vInf => simp [goodCoordB] at h
  | vNInf => simp [goodCoordB] at h
  | vNan => simp [goodCoordB] at h
  | vStr s => simp [goodCoordB] at h
  | vList xs => simp [goodCoordB] at h

/-- A valid point passes the point check. -/
theorem validate_point_ok (cfg : Settings) (p : PyVal) (h : goodPointB cfg p = true) :
    validate_point cfg p = .ok () := by
  cases p with
  | vList xs =>
    match xs with
    | [a, b] =>
      simp only [goodPointB, Bool.and_eq_true] at h
      simp [validate_point, isNoneV, pyLen, pyElems, validate_coords,
        validate_coordinate_ok cfg a h.1, validate_coordinate_ok cfg b h.2, Bind.bind,
        Except.bind]
    | [] => simp [goodPointB] at h
    | [a] => simp [goodPointB] at h
    | a :: b :: c :: t => simp [goodPointB] at h
  | vNone => simp [goodPointB] at h
  | vBool b => simp [goodPointB] at h
  | vInt n => simp [goodPointB] at h
  | vFloat m e => simp [goodPointB] at h
  | vInf => simp [goodPointB] at h
  | vNInf => simp [goodPointB] at h
  | vNan => simp [goodPointB] at h
  | vStr s => simp [goodPointB] at h

/-- A list of valid points passes the point loop. -/
theorem validate_point_list_ok (cfg : Settings) (ps : List PyVal)
    (h : ps.all (goodPointB cfg) = true) : validate_point_list cfg ps = .ok () := by
  induction ps with
  | nil => rfl
  | cons p t ih =>
    simp only [List.all_cons, Bool.and_eq_true] at h
    simp [validate_point_list, validate_point_ok cfg p h.1, ih h.2, Bind.bind, Except.bind]

/-- A list of valid points within the count bound passes
`_validate_points`. -/
theorem validate_points_ok (cfg : Settings) (ps : List PyVal)
    (h : ps.all (goodPointB cfg) = true) (hlen : ps.length ≤ cfg.max_points_count) :
    validate_points cfg ps = .ok () := by
  unfold validate_points
  rw [if_neg (by omega)]
  exact validate_point_list_ok cfg ps h

/-- A valid coordinate is a round-trippable atom. -/
theorem goodCoordB_atomOkB (cfg : Settings) (c : PyVal) (h : goodCoordB cfg c = true) :
    atomOkB c = true := by
  cases c with
  | vBool b => rfl
  | vInt n => rfl
  | vFloat m e =>
    simp [goodCoordB] at h
    simp [atomOkB, h.1]
  | vNone => simp [goodCoordB] at h
  | vInf => simp [goodCoordB] at h
  | vNInf => simp [goodCoordB] at h
  | vNan => simp [goodCoordB] at h
  | vStr s => simp [goodCoordB] at h
  | vList xs => simp [goodCoordB] at h

/-- A valid point is a round-trippable point. -/
theorem goodPointB_pointOkB (cfg : Settings) (p : PyVal) (h : goodPointB cfg p = true) :
    pointOkB p = true := by
  cases p with
  | vList xs =>
    match xs with
    | [a, b] =>
      simp only [goodPointB, Bool.and_eq_true] at h
      simp [pointOkB, goodCoordB_atomOkB cfg a h.1, goodCoordB_atomOkB cfg b h.2]
    | [] => simp [goodPointB] at h
    | [a] => simp [goodPointB] at h
    | a :: b :: c :: t => simp [goodPointB] at h
  | vNone => simp [goodPointB] at h
  | vBool b => simp [goodPointB] at h
  | vInt n => simp [goodPointB] at h
  | vFloat m e => simp [goodPointB] at h
  | vInf => simp [goodPointB] at h
  | vNInf => simp [goodPointB] at h
  | vNan => simp [goodPointB] at h
  | vStr s => simp [goodPointB] at h

/-- Creating from a fully valid request inserts exactly one row and
returns the refreshed entity, whose points decoded back to the input. -/
theorem create_polygon_ok (cfg : Settings) (db : DB) (name : String) (points : List PyVal)
    (hn1 : pyStrip name ≠ "") (hn2 : name.length ≤ cfg.max_name_length)
    (h3 : 3 ≤ points.length) (h4 : points.length ≤ cfg.max_points_count)
    (hp : points.all (goodPointB cfg) = true) :
    create_polygon cfg db name points =
      (.ok ⟨db.nextId, name, .vList points⟩,
       ⟨db.rows ++ [⟨db.nextId, name, some (json_dumps (.vList points))⟩], db.nextId + 1⟩) := by
  have hpoint : points.all pointOkB = true := by
    simp only [List.all_eq_true] at hp ⊢
    exact fun x hx => goodPointB_pointOkB cfg x (hp x hx)
  have hname : ¬(name = "" ∨ pyStrip name = "") := by
    rintro (rfl | h)
    · exact hn1 rfl
    · exact hn1 h
  have hne : ¬points.isEmpty = true := by
    cases points with
    | nil => simp at h3
    | cons p t => simp
  unfold create_polygon
  rw [if_neg hname, if_neg (by omega : ¬name.length > cfg.max_name_length), if_neg hne,
    if_neg (by omega : ¬points.length < 3), validate_points_ok cfg points hp h4]
  unfold save process_bind_param
  simp only [Option.map]
  rw [show process_result_value (some (json_dumps (.vList points))) = .vList points from
    store_roundtrip points hpoint]

/-! ## Lemmas distinguishing error messages -/

/-- Strings differing in their first nine characters differ. -/
theorem ne_of_take9 (s t : String) (h : s.data.take 9 ≠ t.data.take 9) : s ≠ t :=
  fun heq => h (by rw [heq])

/-- The first nine characters of an appended message come from its
literal prefix. -/
theorem take9_append (a x : String) (ha : 9 ≤ a.data.length) :
    (a ++ x).data.take 9 = a.data.take 9 := by
  rw [String.data_append, List.take_append_of_le_length ha]

/-- Two messages built from nine-character-distinct prefixes differ. -/
theorem append_ne_append (a b : String) (ha : 9 ≤ a.data.length) (hb : 9 ≤ b.data.length)
    (hne : a.data.take 9 ≠ b.data.take 9) (x y : String) : a ++ x ≠ b ++ y :=
  ne_of_take9 _ _ (by rw [take9_append a x ha, take9_append b y hb]; exact hne)

/-- A message with a literal prefix differs from a literal with a
distinct first nine characters. -/
theorem append_ne_lit (a b : String) (ha : 9 ≤ a.data.length)
    (hne : a.data.take 9 ≠ b.data.take 9) (x : String) : a ++ x ≠ b :=
  ne_of_take9 _ _ (by rw [take9_append a x ha]; exact hne)

/-- The first nine characters of a doubly appended message come from its
literal prefix. -/
theorem take9_append2 (a x y : String) (ha : 9 ≤ a.data.length) :
    (a ++ x ++ y).data.take 9 = a.data.take 9 := by
  rw [String.data_append, String.data_append, List.append_assoc,
    List.take_append_of_le_length ha]

/-- A literal differs from a doubly appended message with a distinct
prefix. -/
theorem lit_ne_append2 (b a x y : String) (ha : 9 ≤ a.data.length)
    (hne : b.data.take 9 ≠ a.data.take 9) : b ≠ a ++ x ++ y :=
  ne_of_take9 _ _ (by rw [take9_append2 a x y ha]; exact hne)

/-- An appended message differs from a doubly appended message with a
distinct prefix. -/
theorem append_ne_append2 (b z a x y : String) (hb : 9 ≤ b.data.length)
    (ha : 9 ≤ a.data.length) (hne : b.data.take 9 ≠ a.data.take 9) : b ++ z ≠ a ++ x ++ y :=
  ne_of_take9 _ _ (by rw [take9_append b z hb, take9_append2 a x y ha]; exact hne)

/-- Every error `_validate_points` can produce, with the configured
numbers interpolated. -/
theorem validate_coordinate_err (cfg : Settings) (c : PyVal) (e : PyErr)
    (h : validate_coordinate cfg c = .error e) :
    e = .valueError "Coordinate cannot be null" ∨
      e = .valueError "Coordinate must be a number" ∨
      e = .valueError "Coordinate cannot be NaN" ∨
      e = .valueError "Coordinate cannot be Infinite" ∨
      e = .valueError ("Coordinate value too large. Maximum allowed: " ++ maxCoordStr cfg) := by
  unfold validate_coordinate at h
  split_ifs at h <;> simp_all

/-- The coordinate loop only surfaces coordinate errors. -/
theorem validate_coords_err (cfg : Settings) (cs : List PyVal) (e : PyErr)
    (h : validate_coords cfg cs = .error e) :
    e = .valueError "Coordinate cannot be null" ∨
      e = .valueError "Coordinate must be a number" ∨
      e = .valueError "Coordinate cannot be NaN" ∨
      e = .valueError "Coordinate cannot be Infinite" ∨
      e = .valueError ("Coordinate value too large. Maximum allowed: " ++ maxCoordStr cfg) := by
  induction cs with
  | nil => simp [validate_coords] at h
  | cons c t ih =>
    simp only [validate_coords, Bind.bind, Except.bind] at h
    cases hc : validate_coordinate cfg c with
    | error e' =>
      rw [hc] at h
      simp at h
      subst h
      exact validate_coordinate_err cfg c e' hc
    | ok u =>
      cases u
      rw [hc] at h
      exact ih h

/-- The point check only surfaces the arity error, a coordinate error,
or a `TypeError` from `len()`. -/
theorem validate_point_err (cfg : Settings) (p : PyVal) (e : PyErr)
    (h : validate_point cfg p = .error e) :
    e = .valueError "Each point must have exactly 2 coordinates [x, y]" ∨
      e = .valueError "Coordinate cannot be null" ∨
      e = .valueError "Coordinate must be a number" ∨
      e = .valueError "Coordinate cannot be NaN" ∨
      e = .valueError "Coordinate cannot be Infinite" ∨
      e = .valueError ("Coordinate value too large. Maximum allowed: " ++ maxCoordStr cfg) ∨
      (∃ s, e = .typeError s) := by
  unfold validate_point at h
  split_ifs at h with h1
  · simp at h
    tauto
  · simp only [Bind.bind, Except.bind] at h
    cases hl : pyLen p with
    | error e' =>
      rw [hl] at h
      simp at h
      subst h
      cases p <;> simp [pyLen] at hl <;> subst hl <;> exact Or.inr (Or.inr (Or.inr (Or.inr
        (Or.inr (Or.inr ⟨_, rfl⟩)))))
    | ok n =>
      rw [hl] at h
      simp only at h
      split_ifs at h with h2
      · simp at h
        tauto
      · have := validate_coords_err cfg (pyElems p) e h
        tauto

/-- `_validate_points` only surfaces the too-many error, the arity
error, a coordinate error, or a `TypeError`. -/
theorem validate_points_err (cfg : Settings) (ps : List PyVal) (e : PyErr)
    (h : validate_points cfg ps = .error e) :
    e = .valueError ("Too many points. Maximum allowed: " ++ toString cfg.max_points_count) ∨
      e = .valueError "Each point must have exactly 2 coordinates [x, y]" ∨
      e = .valueError "Coordinate cannot be null" ∨
      e = .valueError "Coordinate must be a number" ∨
      e = .valueError "Coordinate cannot be NaN" ∨
      e = .valueError "Coordinate cannot be Infinite" ∨
      e = .valueError ("Coordinate value too large. Maximum allowed: " ++ maxCoordStr cfg) ∨
      (∃ s, e = .typeError s) := by
  unfold validate_points at h
  split_ifs at h with h1
  · simp at h
    tauto
  · clear h1
    induction ps with
    | nil => simp [validate_point_list] at h
    | cons p t ih =>
      simp only [validate_point_list, Bind.bind, Except.bind] at h
      cases hp : validate_point cfg p with
      | error e' =>
        rw [hp] at h
        simp at h
        subst h
        have := validate_point_err cfg p e' hp
        tauto
      | ok u =>
        cases u
        rw [hp] at h
        exact ih h

/-- No error produced past the name checks is a name error. -/
theorem post_name_err_not_name (cfg : Settings) (e : PyErr)
    (h : e = .valueError "Polygon points are required" ∨
      e = .valueError "Polygon must have at least 3 points" ∨
      e = .valueError ("Too many points. Maximum allowed: " ++ toString cfg.max_points_count) ∨
      e = .valueError "Each point must have exactly 2 coordinates [x, y]" ∨
      e = .valueError "Coordinate cannot be null" ∨
      e = .valueError "Coordinate must be a number" ∨
      e = .valueError "Coordinate cannot be NaN" ∨
      e = .valueError "Coordinate cannot be Infinite" ∨
      e = .valueError ("Coordinate value too large. Maximum allowed: " ++ maxCoordStr cfg) ∨
      (∃ s, e = .typeError s)) :
    ¬isNameErr cfg e := by
  have req : ("Polygon name is required" : String).data.take 9 = "Polygon n".data := by decide
  have lng : ("Polygon name too long. Maximum allowed: " : String).data.take 9 =
      "Polygon n".data := by decide
  rcases h with rfl | rfl | rfl | rfl | rfl | rfl | rfl | rfl | rfl | ⟨s, rfl⟩ <;>
    rintro (heq | heq) <;>
    first
    | exact PyErr.noConfusion heq
    | · injection heq with hmsg
        revert hmsg
        first
        | exact append_ne_lit _ _ (by decide) (by decide) _
        | exact append_ne_append _ _ (by decide) (by decide) (by decide) _ _
        | exact lit_ne_append2 _ _ _ _ (by decide) (by decide)
        | exact append_ne_append2 _ _ _ _ _ (by decide) (by decide) (by decide)
        | exact ne_of_take9 _ _ (by decide)

/-- No error `_validate_points` produces is the too-few-points error. -/
theorem validate_points_err_ne_tooFew (cfg : Settings) (ps : List PyVal) (e : PyErr)
    (h : validate_points cfg ps = .error e) : e ≠ tooFewErr := by
  have hcases := validate_points_err cfg ps e h
  rcases hcases with rfl | rfl | rfl | rfl | rfl | rfl | rfl | ⟨s, rfl⟩ <;> intro heq <;>
    first
    | exact PyErr.noConfusion heq
    | · injection heq with hmsg
        revert hmsg
        first
        | exact ne_of_take9 _ _ (by decide)
        | exact append_ne_lit _ _ (by decide) (by decide) _

/-! ## Claim theorems -/

/-- C5: validation order is deterministic. Whenever the name is invalid —
empty, blank after stripping, or longer than the configured maximum —
`create_polygon` raises one of the two name errors, whatever the points
are (in particular when the points are also invalid): the name is checked
before any points check. -/
theorem C5_name_checked_before_points (cfg : Settings) (db : DB) (name : String)
    (points : List PyVal)
    (h : name = "" ∨ pyStrip name = "" ∨ name.length > cfg.max_name_length) :
    ∃ e, (create_polygon cfg db name points).1 = .error e ∧ isNameErr cfg e := by
  by_cases hb : name = "" ∨ pyStrip name = ""
  · refine ⟨.valueError "Polygon name is required", ?_, Or.inl rfl⟩
    unfold create_polygon
    rw [if_pos hb]
  · have hlen : name.length > cfg.max_name_length := by tauto
    refine ⟨.valueError ("Polygon name too long. Maximum allowed: " ++
      toString cfg.max_name_length ++ " characters"), ?_, Or.inr rfl⟩
    unfold create_polygon
    rw [if_neg hb, if_pos hlen]

/-- Witness for C5 at a blank name and simultaneously invalid points. -/
theorem C5_witness :
    (("   " : String) = "" ∨ pyStrip "   " = "" ∨ ("   " : String).length > 255) ∧
      ∃ e, (create_polygon defaultSettings demoDB "   " []).1 = .error e ∧
        isNameErr defaultSettings e :=
  ⟨by decide, C5_name_checked_before_points defaultSettings demoDB "   " [] (by decide)⟩

/-- C9: creation is atomic on error. Whenever `create_polygon` raises
any error, the database it returns is exactly the one it was given — no
store operation has happened. -/
theorem C9_create_atomic_on_error (cfg : Settings) (db : DB) (name : String)
    (points : List PyVal) (e : PyErr)
    (h : (create_polygon cfg db name points).1 = .error e) :
    (create_polygon cfg db name points).2 = db := by
  unfold create_polygon at h ⊢
  split_ifs at h ⊢
  any_goals rfl
  cases hv : validate_points cfg points with
  | error e' => rfl
  | ok u =>
    cases u
    rw [hv] at h
    simp [save] at h

/-- Witness for C9 at a blank-name failure against a populated
database. -/
theorem C9_witness :
    (create_polygon defaultSettings demoDB "" demoPoints).1 =
        .error (.valueError "Polygon name is required") ∧
      (create_polygon defaultSettings demoDB "" demoPoints).2 = demoDB :=
  ⟨rfl, C9_create_atomic_on_error defaultSettings demoDB "" demoPoints
    (.valueError "Polygon name is required") rfl⟩

/-- C2 (amended): the name length bound is applied to the untrimmed
name. For every name that is non-blank after stripping and whose
untrimmed length is within the configured maximum, `create_polygon`
never raises a name error. -/
theorem C2_amended_untrimmed_bound (cfg : Settings) (db : DB) (name : String)
    (points : List PyVal) (hn1 : pyStrip name ≠ "") (hn2 : name.length ≤ cfg.max_name_length)
    (e : PyErr) (h : (create_polygon cfg db name points).1 = .error e) :
    ¬isNameErr cfg e := by
  have hname : ¬(name = "" ∨ pyStrip name = "") := by
    rintro (rfl | hx)
    · exact hn1 rfl
    · exact hn1 hx
  unfold create_polygon at h
  rw [if_neg hname, if_neg (by omega : ¬name.length > cfg.max_name_length)] at h
  split_ifs at h with h1 h2
  · simp at h
    subst h
    exact post_name_err_not_name cfg _ (Or.inl rfl)
  · simp at h
    subst h
    exact post_name_err_not_name cfg _ (Or.inr (Or.inl rfl))
  · cases hv : validate_points cfg points with
    | error e' =>
      rw [hv] at h
      simp at h
      subst h
      apply post_name_err_not_name cfg
      have := validate_points_err cfg points e' hv
      tauto
    | ok u =>
      cases u
      rw [hv] at h
      simp [save] at h

/-- Witness for the amended C2: a maximal-length name with surrounding
spaces is accepted past the name checks. -/
theorem C2_amended_witness :
    pyStrip " P1 " ≠ "" ∧ (" P1 " : String).length ≤ 255 ∧
      ¬isNameErr defaultSettings (.valueError "Polygon points are required") ∧
      (create_polygon defaultSettings DB.empty " P1 " []).1 =
        .error (.valueError "Polygon points are required") :=
  ⟨by decide, by decide,
    C2_amended_untrimmed_bound defaultSettings DB.empty " P1 " [] (by decide) (by decide)
      (.valueError "Polygon points are required") rfl, rfl⟩

set_option maxRecDepth 40000 in
/-- C2 (counterexample): the claim as stated fails. This 256-character
name strips to the single character `a` — non-blank, trimmed length 1 —
yet `create_polygon` raises the name-too-long error, because the bound
is applied to the untrimmed length 256. -/
theorem C2_counterexample :
    pyStrip paddedName = "a" ∧ paddedName.length = 256 ∧ (pyStrip paddedName).length = 1 ∧
      (create_polygon defaultSettings DB.empty paddedName demoPoints).1 =
        .error (.valueError "Polygon name too long. Maximum allowed: 255 characters") := by
  refine ⟨by decide, rfl, by decide, rfl⟩

/-- C3 (counterexample): the minimum point count is not configurable.
With the configured minimum raised to five, a four-point create does not
fail the too-few-points check — it succeeds outright, because the
service compares against a hard-coded 3. -/
theorem C3_counterexample :
    fourPoints.length = 4 ∧ fourPoints.length < cfgMin5.min_points_count ∧
      (create_polygon cfgMin5 DB.empty "P1" fourPoints).1 =
        .ok ⟨1, "P1", .vList fourPoints⟩ := by
  refine ⟨rfl, by decide, rfl⟩

/-- C3 (amended): the minimum point count is hard-coded at 3, whatever
`min_points_count` is configured to. With a valid name, a nonempty
points list of fewer than 3 points always fails with the
too-few-points error, and a list of at least 3 points never produces
that error. -/
theorem C3_min_is_hardcoded_three (cfg : Settings) (db : DB) (name : String)
    (points : List PyVal) (hn1 : pyStrip name ≠ "") (hn2 : name.length ≤ cfg.max_name_length) :
    ((points ≠ [] ∧ points.length < 3) →
      (create_polygon cfg db name points).1 = .error tooFewErr) ∧
    (3 ≤ points.length → (create_polygon cfg db name points).1 ≠ .error tooFewErr) := by
  have hname : ¬(name = "" ∨ pyStrip name = "") := by
    rintro (rfl | hx)
    · exact hn1 rfl
    · exact hn1 hx
  constructor
  · rintro ⟨hne, hlt⟩
    unfold create_polygon
    rw [if_neg hname, if_neg (by omega : ¬name.length > cfg.max_name_length),
      if_neg (by simp [List.isEmpty_iff, hne]), if_pos hlt]
    rfl
  · intro hge h
    unfold create_polygon at h
    have hne : points ≠ [] := by
      intro hx
      subst hx
      simp at hge
    rw [if_neg hname, if_neg (by omega : ¬name.length > cfg.max_name_length),
      if_neg (by simp [List.isEmpty_iff, hne]), if_neg (by omega : ¬points.length < 3)] at h
    cases hv : validate_points cfg points with
    | error e' =>
      rw [hv] at h
      simp at h
      exact validate_points_err_ne_tooFew cfg points e' hv h
    | ok u =>
      cases u
      rw [hv] at h
      simp [save] at h

/-- Witness for the amended C3 under the raised configured minimum:
two points fail with the too-few error, four do not. -/
theorem C3_amended_witness :
    pyStrip "P1" ≠ "" ∧ ("P1" : String).length ≤ cfgMin5.max_name_length ∧
      ([.vList [.vInt 0, .vInt 0], .vList [.vInt 1, .vInt 1]] ≠ ([] : List PyVal) ∧
          ([.vList [.vInt 0, .vInt 0], .vList [.vInt 1, .vInt 1]] : List PyVal).length < 3) ∧
      (create_polygon cfgMin5 DB.empty "P1"
          [.vList [.vInt 0, .vInt 0], .vList [.vInt 1, .vInt 1]]).1 = .error tooFewErr ∧
      3 ≤ fourPoints.length ∧
      (create_polygon cfgMin5 DB.empty "P1" fourPoints).1 ≠ .error tooFewErr := by
  refine ⟨by decide, by decide, ⟨List.cons_ne_nil _ _, by decide⟩, ?_, by decide, ?_⟩
  · exact (C3_min_is_hardcoded_three cfgMin5 DB.empty "P1" _ (by decide) (by decide)).1
      ⟨List.cons_ne_nil _ _, by decide⟩
  · exact (C3_min_is_hardcoded_three cfgMin5 DB.empty "P1" fourPoints (by decide)
      (by decide)).2 (by decide)

/-- C10: the service's coordinate check accepts booleans, because
`bool` is a subclass of `int` in Python, so `isinstance(c, (int, float))`
holds and the NaN, Infinity and magnitude checks all pass. A polygon
whose points are boolean pairs is created and persisted, and its stored
text round-trips the booleans. -/
theorem C10_bool_coordinates_accepted :
    create_polygon defaultSettings DB.empty "B" boolPoints =
      (.ok ⟨1, "B", .vList boolPoints⟩,
       ⟨[⟨1, "B", some "[[true, false], [true, true], [false, false]]"⟩], 2⟩) := rfl

/-- C1: for every valid input — a database satisfying the invariant, a
name non-blank after stripping with length between 1 and 255 and within
the configured bound, and 3 to the configured maximum points, each a
2-element pair of in-range finite coordinates — `create_polygon`
succeeds, the returned id is positive, the returned name and points
equal the input exactly, and the store's encode followed by decode of
the points list is the identity. -/
theorem C1_create_valid_roundtrip (cfg : Settings) (db : DB) (name : String)
    (points : List PyVal) (hwf : db.WF) (hn1 : pyStrip name ≠ "")
    (_hn2 : 1 ≤ name.length) (_hn3 : name.length ≤ 255)
    (hn4 : name.length ≤ cfg.max_name_length)
    (h3 : 3 ≤ points.length) (h4 : points.length ≤ cfg.max_points_count)
    (hp : points.all (goodPointB cfg) = true) :
    create_polygon cfg db name points =
      (.ok ⟨db.nextId, name, .vList points⟩,
       ⟨db.rows ++ [⟨db.nextId, name, some (json_dumps (.vList points))⟩], db.nextId + 1⟩) ∧
    0 < db.nextId ∧
    process_result_value (process_bind_param (some (.vList points))) = .vList points := by
  refine ⟨create_polygon_ok cfg db name points hn1 hn4 h3 h4 hp, hwf.2.2, ?_⟩
  apply store_roundtrip
  simp only [List.all_eq_true] at hp ⊢
  exact fun x hx => goodPointB_pointOkB cfg x (hp x hx)

/-- Witness for C1 at the spec's worked example against a populated
database. -/
theorem C1_witness :
    demoDB.WF ∧ pyStrip "P1" ≠ "" ∧ 1 ≤ ("P1" : String).length ∧
      ("P1" : String).length ≤ 255 ∧
      ("P1" : String).length ≤ defaultSettings.max_name_length ∧
      3 ≤ demoPoints.length ∧ demoPoints.length ≤ defaultSettings.max_points_count ∧
      demoPoints.all (goodPointB defaultSettings) = true ∧
      (create_polygon defaultSettings demoDB "P1" demoPoints =
        (.ok ⟨demoDB.nextId, "P1", .vList demoPoints⟩,
         ⟨demoDB.rows ++ [⟨demoDB.nextId, "P1", some (json_dumps (.vList demoPoints))⟩],
          demoDB.nextId + 1⟩) ∧
       0 < demoDB.nextId ∧
       process_result_value (process_bind_param (some (.vList demoPoints))) =
         .vList demoPoints) :=
  ⟨by decide, by decide, by decide, by decide, by decide, by decide, by decide, by decide,
    C1_create_valid_roundtrip defaultSettings demoDB "P1" demoPoints (by decide) (by decide)
      (by decide) (by decide) (by decide) (by decide) (by decide) (by decide)⟩

/-! ## Lemmas about the database operations -/

/-- With distinct ids, deleting by id removes one row when the id is
present and none otherwise. -/
theorem filter_delete_count (rows : List Row) (i : Nat)
    (hnd : (rows.map Row.id).Nodup) :
    rows.length - (rows.filter (fun r => r.id != i)).length =
      if i ∈ rows.map Row.id then 1 else 0 := by
  induction rows with
  | nil => simp
  | cons r t ih =>
    simp only [List.map_cons, List.nodup_cons] at hnd
    have hle := List.length_filter_le (fun r => r.id != i) t
    by_cases hri : r.id = i
    · subst hri
      have hall : t.filter (fun x => x.id != r.id) = t :=
        List.filter_eq_self.mpr fun x hx => by
          simp only [bne_iff_ne, ne_eq, decide_eq_true_eq]
          intro hxe
          exact hnd.1 (hxe ▸ List.mem_map_of_mem Row.id hx)
      simp [List.filter_cons, hall]
    · have hmem : ¬i = r.id := fun h => hri h.symm
      have ih' := ih hnd.2
      simp only [List.filter_cons, show (r.id != i) = true by simp [hri], if_pos,
        List.length_cons, List.map_cons, List.mem_cons]
      simp only [hmem, false_or]
      omega

/-- C4: `find_all` returns every stored polygon in insertion order —
the ids come back exactly in the stored row order, which under the
invariant is sorted ascending by primary key — and listing twice with no
intervening writes returns identical results in identical order (the
read leaves the database unchanged). -/
theorem C4_find_all_ordered (db : DB) (hwf : db.WF) :
    (find_all db).map PolygonEnt.id = db.rows.map Row.id ∧
      List.Sorted (· < ·) ((find_all db).map PolygonEnt.id) ∧
      (∀ r ∈ db.rows,
        (⟨r.id, r.name, process_result_value r.points_text⟩ : PolygonEnt) ∈ find_all db) ∧
      (get_all_polygons db).2 = db ∧
      (get_all_polygons ((get_all_polygons db).2)).1 = (get_all_polygons db).1 := by
  have hids : (find_all db).map PolygonEnt.id = db.rows.map Row.id := by
    simp [find_all, List.map_map]
  refine ⟨hids, ?_, ?_, rfl, rfl⟩
  · rw [hids]
    exact hwf.1
  · intro r hr
    exact List.mem_map_of_mem _ hr

/-- Witness for C4 at a two-row database. -/
theorem C4_witness :
    demoDB.WF ∧
      ((find_all demoDB).map PolygonEnt.id = demoDB.rows.map Row.id ∧
        List.Sorted (· < ·) ((find_all demoDB).map PolygonEnt.id) ∧
        (∀ r ∈ demoDB.rows,
          (⟨r.id, r.name, process_result_value r.points_text⟩ : PolygonEnt) ∈
            find_all demoDB) ∧
        (get_all_polygons demoDB).2 = demoDB ∧
        (get_all_polygons ((get_all_polygons demoDB).2)).1 = (get_all_polygons demoDB).1) :=
  ⟨by decide, C4_find_all_ordered demoDB (by decide)⟩

/-- C7: `delete_polygon` returns true exactly when the store's
delete-by-id removed one row, and the DELETE endpoint answers 200 with
the success message and the id when the id was present, 404 with no
body and an unchanged database when it was not. -/
theorem C7_delete_semantics (db : DB) (i : Nat) (hwf : db.WF) :
    ((delete_polygon db i).1 = true ↔ (delete_by_id db i).1 = 1) ∧
      (i ∈ db.rows.map Row.id →
        delete_polygon_endpoint db i =
          ((200, some ("Polygon deleted successfully", i)),
           ⟨db.rows.filter (fun r => r.id != i), db.nextId⟩)) ∧
      (i ∉ db.rows.map Row.id → delete_polygon_endpoint db i = ((404, none), db)) := by
  have hnd : (db.rows.map Row.id).Nodup := hwf.1.nodup
  have hcnt : (delete_by_id db i).1 = if i ∈ db.rows.map Row.id then 1 else 0 :=
    filter_delete_count db.rows i hnd
  by_cases hmem : i ∈ db.rows.map Row.id
  · rw [if_pos hmem] at hcnt
    refine ⟨?_, fun _ => ?_, fun h => absurd hmem h⟩
    · simp [delete_polygon, hcnt]
    · simp only [delete_polygon_endpoint, delete_polygon, delete_by_id] at hcnt ⊢
      simp [hcnt]
  · rw [if_neg hmem] at hcnt
    have hfix : db.rows.filter (fun r => r.id != i) = db.rows := by
      apply List.filter_eq_self.mpr
      intro x hx
      simp only [bne_iff_ne, ne_eq, decide_eq_true_eq]
      intro hxe
      exact hmem (hxe ▸ List.mem_map_of_mem Row.id hx)
    refine ⟨?_, fun h => absurd h hmem, fun _ => ?_⟩
    · simp [delete_polygon, hcnt]
    · simp only [delete_polygon_endpoint, delete_polygon, delete_by_id] at hcnt ⊢
      simp [hcnt, hfix]

/-- Witness for C7: deleting id 1 from the sample database succeeds with
a 200, deleting the absent id 9 answers 404 and leaves the database
unchanged. -/
theorem C7_witness :
    demoDB.WF ∧
      (((delete_polygon demoDB 1).1 = true ↔ (delete_by_id demoDB 1).1 = 1) ∧
        (1 ∈ demoDB.rows.map Row.id →
          delete_polygon_endpoint demoDB 1 =
            ((200, some ("Polygon deleted successfully", 1)),
             ⟨demoDB.rows.filter (fun r => r.id != 1), demoDB.nextId⟩)) ∧
        (1 ∉ demoDB.rows.map Row.id → delete_polygon_endpoint demoDB 1 = ((404, none), demoDB))) ∧
      (9 ∉ demoDB.rows.map Row.id → delete_polygon_endpoint demoDB 9 = ((404, none), demoDB)) :=
  ⟨by decide, C7_delete_semantics demoDB 1 (by decide),
    (C7_delete_semantics demoDB 9 (by decide)).2.2⟩

/-! ## Claim C6 -/

/-- C6 (counterexample): the claim as stated fails on blank stored
text. Decoding the one-space string fails — `json.loads` has nothing to
parse — yet the decoder returns Python `None`, not an empty sequence,
because the blank guard fires before decoding. -/
theorem C6_counterexample :
    json_loads " " = .error "unexpected end of input" ∧
      process_result_value (some " ") = .vNone ∧
      process_result_value (some " ") ≠ .vList [] :=
  ⟨rfl, rfl, fun h => PyVal.noConfusion h⟩

/-- C6 (amended): for every stored text that is non-blank after
stripping, whenever decoding does not produce a list — it fails outright
or yields a non-list value — the decoder returns the empty list, and no
decode exception escapes (the decoder is total by construction). -/
theorem C6_amended_decode_resilient (s : String) (hb : pyStrip s ≠ "")
    (h : ∀ xs, json_loads s ≠ .ok (.vList xs)) :
    process_result_value (some s) = .vList [] := by
  show (if pyStrip s = "" then PyVal.vNone
    else match json_loads s with
      | .error _ => PyVal.vList []
      | .ok (.vList xs) => PyVal.vList xs
      | .ok _ => PyVal.vList []) = PyVal.vList []
  rw [if_neg hb]
  cases hj : json_loads s with
  | error e => rfl
  | ok v =>
    cases v with
    | vList xs => exact absurd hj (h xs)
    | vNone => rfl
    | vBool b => rfl
    | vInt n => rfl
    | vFloat m e => rfl
    | vInf => rfl
    | vNInf => rfl
    | vNan => rfl
    | vStr s' => rfl

/-- Witness for the amended C6: the stored text `5` decodes to an
integer, which is not a list, so the decoder returns the empty list. -/
theorem C6_amended_witness :
    pyStrip "5" ≠ "" ∧ json_loads "5" = .ok (.vInt 5) ∧
      process_result_value (some "5") = .vList [] :=
  ⟨by decide, rfl,
    C6_amended_decode_resilient "5" (by decide) fun xs h => by
      rw [show json_loads "5" = .ok (.vInt 5) from rfl] at h
      simp at h⟩

/-! ## Claim C8 -/

/-- A finite in-range coordinate passes the coordinate checks. -/
theorem validate_coordinate_fin_ok (cfg : Settings) (c : PyVal) (hf : finNumB c = true)
    (hno : coordAbsGtMax cfg c = false) : validate_coordinate cfg c = .ok () := by
  cases c with
  | vBool b => simp [validate_coordinate, isNoneV, isNumberInst, isNanV, isInfV, hno]
  | vInt n => simp [validate_coordinate, isNoneV, isNumberInst, isNanV, isInfV, hno]
  | vFloat m e => simp [validate_coordinate, isNoneV, isNumberInst, isNanV, isInfV, hno]
  | vNone => simp [finNumB] at hf
  | vInf => simp [finNumB] at hf
  | vNInf => simp [finNumB] at hf
  | vNan => simp [finNumB] at hf
  | vStr s => simp [finNumB] at hf
  | vList xs => simp [finNumB] at hf

/-- A finite over-bound coordinate fails with exactly the too-large
error. -/
theorem validate_coordinate_over (cfg : Settings) (c : PyVal) (hf : finNumB c = true)
    (hover : coordAbsGtMax cfg c = true) :
    validate_coordinate cfg c = .error (tooLargeErr cfg) := by
  cases c with
  | vBool b => simp [validate_coordinate, isNoneV, isNumberInst, isNanV, isInfV, hover,
      tooLargeErr]
  | vInt n => simp [validate_coordinate, isNoneV, isNumberInst, isNanV, isInfV, hover,
      tooLargeErr]
  | vFloat m e => simp [validate_coordinate, isNoneV, isNumberInst, isNanV, isInfV, hover,
      tooLargeErr]
  | vNone => simp [finNumB] at hf
  | vInf => simp [finNumB] at hf
  | vNInf => simp [finNumB] at hf
  | vNan => simp [finNumB] at hf
  | vStr s => simp [finNumB] at hf
  | vList xs => simp [finNumB] at hf

/-- Scanning finite coordinates, the first over-bound one surfaces the
too-large error. -/
theorem validate_coords_over (cfg : Settings) (cs : List PyVal)
    (hf : cs.all finNumB = true) (hover : cs.any (overCoordB cfg) = true) :
    validate_coords cfg cs = .error (tooLargeErr cfg) := by
  induction cs with
  | nil => simp at hover
  | cons c t ih =>
    simp only [List.all_cons, Bool.and_eq_true] at hf
    by_cases hc : coordAbsGtMax cfg c = true
    · simp [validate_coords, validate_coordinate_over cfg c hf.1 hc, Bind.bind, Except.bind]
    · have hcf : coordAbsGtMax cfg c = false := by
        revert hc
        cases coordAbsGtMax cfg c <;> simp
      have htail : t.any (overCoordB cfg) = true := by
        simp only [List.any_cons, Bool.or_eq_true, overCoordB, Bool.and_eq_true] at hover
        rcases hover with ⟨_, hc'⟩ | ht
        · exact absurd hc' hc
        · exact ht
      simp [validate_coords, validate_coordinate_fin_ok cfg c hf.1 hcf, ih hf.2 htail,
        Bind.bind, Except.bind]

/-- A finite point with no over-bound coordinate passes the point
check. -/
theorem validate_point_fin_ok (cfg : Settings) (p : PyVal) (hf : finPointB p = true)
    (hno : pointHasOverB cfg p = false) : validate_point cfg p = .ok () := by
  cases p with
  | vList xs =>
    match xs with
    | [a, b] =>
      simp only [finPointB, Bool.and_eq_true] at hf
      simp only [pointHasOverB, List.any_cons, List.any_nil, Bool.or_false,
        Bool.or_eq_false_iff, overCoordB, Bool.and_eq_false_iff] at hno
      have hna : coordAbsGtMax cfg a = false := by
        rcases hno.1 with h | h
        · rw [hf.1] at h
          cases h
        · exact h
      have hnb : coordAbsGtMax cfg b = false := by
        rcases hno.2 with h | h
        · rw [hf.2] at h
          cases h
        · exact h
      simp [validate_point, isNoneV, pyLen, pyElems, validate_coords,
        validate_coordinate_fin_ok cfg a hf.1 hna, validate_coordinate_fin_ok cfg b hf.2 hnb,
        Bind.bind, Except.bind]
    | [] => simp [finPointB] at hf
    | [a] => simp [finPointB] at hf
    | a :: b :: c :: t => simp [finPointB] at hf
  | vNone => simp [finPointB] at hf
  | vBool b => simp [finPointB] at hf
  | vInt n => simp [finPointB] at hf
  | vFloat m e => simp [finPointB] at hf
  | vInf => simp [finPointB] at hf
  | vNInf => simp [finPointB] at hf
  | vNan => simp [finPointB] at hf
  | vStr s => simp [finPointB] at hf

/-- A finite point containing an over-bound coordinate fails with the
too-large error. -/
theorem validate_point_over (cfg : Settings) (p : PyVal) (hf : finPointB p = true)
    (hover : pointHasOverB cfg p = true) :
    validate_point cfg p = .error (tooLargeErr cfg) := by
  cases p with
  | vList xs =>
    match xs with
    | [a, b] =>
      simp only [finPointB, Bool.and_eq_true] at hf
      have hcs : ([a, b] : List PyVal).all finNumB = true := by
        simp [hf.1, hf.2]
      have hany : ([a, b] : List PyVal).any (overCoordB cfg) = true := by
        simpa [pointHasOverB] using hover
      simp [validate_point, isNoneV, pyLen, pyElems,
        validate_coords_over cfg [a, b] hcs hany, Bind.bind, Except.bind]
    | [] => simp [finPointB] at hf
    | [a] => simp [finPointB] at hf
    | a :: b :: c :: t => simp [finPointB] at hf
  | vNone => simp [finPointB] at hf
  | vBool b => simp [finPointB] at hf
  | vInt n => simp [finPointB] at hf
  | vFloat m e => simp [finPointB] at hf
  | vInf => simp [finPointB] at hf
  | vNInf => simp [finPointB] at hf
  | vNan => simp [finPointB] at hf
  | vStr s => simp [finPointB] at hf

/-- Scanning finite points, the first point with an over-bound
coordinate surfaces the too-large error. -/
theorem validate_point_list_over (cfg : Settings) (ps : List PyVal)
    (hf : ps.all finPointB = true) (hover : ps.any (pointHasOverB cfg) = true) :
    validate_point_list cfg ps = .error (tooLargeErr cfg) := by
  induction ps with
  | nil => simp at hover
  | cons p t ih =>
    simp only [List.all_cons, Bool.and_eq_true] at hf
    by_cases hp : pointHasOverB cfg p = true
    · simp [validate_point_list, validate_point_over cfg p hf.1 hp, Bind.bind, Except.bind]
    · have hpf : pointHasOverB cfg p = false := by
        revert hp
        cases pointHasOverB cfg p <;> simp
      have htail : t.any (pointHasOverB cfg) = true := by
        simp only [List.any_cons, Bool.or_eq_true] at hover
        tauto
      simp [validate_point_list, validate_point_fin_ok cfg p hf.1 hpf, ih hf.2 htail,
        Bind.bind, Except.bind]

/-- With an over-bound coordinate among otherwise finite points,
`_validate_points` fails with the too-large error carrying the
configured maximum. -/
theorem validate_points_over (cfg : Settings) (ps : List PyVal)
    (hf : ps.all finPointB = true) (hover : ps.any (pointHasOverB cfg) = true)
    (hlen : ps.length ≤ cfg.max_points_count) :
    validate_points cfg ps = .error (tooLargeErr cfg) := by
  unfold validate_points
  rw [if_neg (by omega)]
  exact validate_point_list_over cfg ps hf hover

/-- With an over-bound coordinate among otherwise valid inputs, the
service rejects the create with the too-large `ValueError` and leaves
the database unchanged. -/
theorem create_polygon_tooLarge (cfg : Settings) (db : DB) (name : String)
    (points : List PyVal) (hn1 : pyStrip name ≠ "") (hn2 : name.length ≤ cfg.max_name_length)
    (h3 : 3 ≤ points.length) (h4 : points.length ≤ cfg.max_points_count)
    (hf : points.all finPointB = true) (hover : points.any (pointHasOverB cfg) = true) :
    create_polygon cfg db name points = (.error (tooLargeErr cfg), db) := by
  have hname : ¬(name = "" ∨ pyStrip name = "") := by
    rintro (rfl | hx)
    · exact hn1 rfl
    · exact hn1 hx
  have hne : points ≠ [] := by
    intro hx
    subst hx
    simp at h3
  unfold create_polygon
  rw [if_neg hname, if_neg (by omega : ¬name.length > cfg.max_name_length),
    if_neg (by simp [List.isEmpty_iff, hne]), if_neg (by omega : ¬points.length < 3),
    validate_points_over cfg points hf hover h4]

/-- A finite numeric coordinate passes the schema's coordinate checks,
whatever its magnitude: the schema has no bound check. -/
theorem schema_coord_fin_ok (c : PyVal) (hf : finNumB c = true) : schema_coord c = .ok () := by
  cases c with
  | vBool b => rfl
  | vInt n => rfl
  | vFloat m e => rfl
  | vNone => simp [finNumB] at hf
  | vInf => simp [finNumB] at hf
  | vNInf => simp [finNumB] at hf
  | vNan => simp [finNumB] at hf
  | vStr s => simp [finNumB] at hf
  | vList xs => simp [finNumB] at hf

/-- A list of finite points passes the schema's point loop. -/
theorem schema_point_list_ok (points : List PyVal) (hf : points.all finPointB = true) :
    schema_point_list points = .ok () := by
  induction points with
  | nil => rfl
  | cons p t ih =>
    simp only [List.all_cons, Bool.and_eq_true] at hf
    have hp : (match pyLen p with
        | .error _ => Except.error "value is not a valid list"
        | .ok n =>
          if n ≠ 2 then Except.error "Each point must have exactly 2 coordinates [x, y]"
          else schema_coords (pyElems p)) = Except.ok () := by
      cases p with
      | vList xs =>
        match xs with
        | [a, b] =>
          have h1 := hf.1
          simp only [finPointB, Bool.and_eq_true] at h1
          simp [pyLen, pyElems, schema_coords, schema_coord_fin_ok a h1.1,
            schema_coord_fin_ok b h1.2, Bind.bind, Except.bind]
        | [] => simp [finPointB] at hf
        | [a] => simp [finPointB] at hf
        | a :: b :: c :: t' => simp [finPointB] at hf
      | vNone => simp [finPointB] at hf
      | vBool b => simp [finPointB] at hf
      | vInt n => simp [finPointB] at hf
      | vFloat m e => simp [finPointB] at hf
      | vInf => simp [finPointB] at hf
      | vNInf => simp [finPointB] at hf
      | vNan => simp [finPointB] at hf
      | vStr s => simp [finPointB] at hf
    simp only [schema_point_list, hp, Bind.bind, Except.bind]
    exact ih hf.2

/-- A well-shaped request of finite points passes the whole schema
layer: the schema applies no magnitude bound. -/
theorem schema_validate_ok (name : String) (points : List PyVal)
    (hn1 : pyStrip name ≠ "") (hl1 : 1 ≤ name.length) (hl2 : name.length ≤ 255)
    (h3 : 3 ≤ points.length) (hf : points.all finPointB = true) :
    schema_validate name points = .ok () := by
  have hname : ¬(name = "" ∨ pyStrip name = "") := by
    rintro (rfl | hx)
    · exact hn1 rfl
    · exact hn1 hx
  have hne : points ≠ [] := by
    intro hx
    subst hx
    simp at h3
  unfold schema_validate
  rw [if_neg (by omega : ¬name.length < 1), if_neg (by omega : ¬name.length > 255),
    if_neg (by omega : ¬points.length < 3), if_neg hname,
    if_neg (by omega : ¬name.length > 255), if_neg (by simp [List.isEmpty_iff, hne]),
    if_neg (by omega : ¬points.length < 3)]
  exact schema_point_list_ok points hf

/-- C8: a request whose coordinates are finite and well-shaped but
contains one with magnitude over the configured bound passes the schema
layer, is rejected by the service, and the POST endpoint answers 400
with a message containing the configured maximum; the database is
unchanged. -/
theorem C8_oversized_coordinate_400 (cfg : Settings) (db : DB) (name : String)
    (points : List PyVal) (hn1 : pyStrip name ≠ "") (hl1 : 1 ≤ name.length)
    (hl2 : name.length ≤ 255) (hn2 : name.length ≤ cfg.max_name_length)
    (h3 : 3 ≤ points.length) (h4 : points.length ≤ cfg.max_points_count)
    (hf : points.all finPointB = true) (hover : points.any (pointHasOverB cfg) = true) :
    post_polygon cfg db name points =
      ((400, some ("Coordinate value too large. Maximum allowed: " ++ maxCoordStr cfg)), db) ∧
      strContains ("Coordinate value too large. Maximum allowed: " ++ maxCoordStr cfg)
        (maxCoordStr cfg) := by
  constructor
  · unfold post_polygon
    rw [schema_validate_ok name points hn1 hl1 hl2 h3 hf,
      create_polygon_tooLarge cfg db name points hn1 hn2 h3 h4 hf hover]
    rfl
  · exact ⟨"Coordinate value too large. Maximum allowed: ", "", by simp⟩

/-- Witness for C8: a twenty-million coordinate under the default
one-million bound draws a 400 whose message carries `1000000.0`. -/
theorem C8_witness :
    pyStrip "P1" ≠ "" ∧ overPoints.all finPointB = true ∧
      overPoints.any (pointHasOverB defaultSettings) = true ∧
      maxCoordStr defaultSettings = "1000000.0" ∧
      (post_polygon defaultSettings DB.empty "P1" overPoints =
        ((400, some ("Coordinate value too large. Maximum allowed: " ++
          maxCoordStr defaultSettings)), DB.empty) ∧
       strContains ("Coordinate value too large. Maximum allowed: " ++
          maxCoordStr defaultSettings) (maxCoordStr defaultSettings)) :=
  ⟨by decide, by decide, by decide, rfl,
    C8_oversized_coordinate_400 defaultSettings DB.empty "P1" overPoints (by decide) (by decide)
      (by decide) (by decide) (by decide) (by decide) (by decide) (by decide)⟩
